import Mathlib

/-!
Verification of the AI decision/combat-state core of the csrpg2 repository.

Shallow embedding conventions:
* JavaScript `number` scalars are modelled as `ℚ` (every constant appearing in
  the verified logic is a finite decimal, exactly representable).
* Float geometry (`Vector3.length`, `normalize`, `angleTo`, `atan2`,
  `MathUtils.lerp`) and `Math.random()` are not rational-valued; they are
  abstracted as oracle parameters (`Geo`, `SoldierRand`, per-tick line-of-sight
  booleans) with no assumed properties, universally quantified in every
  theorem.  No claim in scope depends on their values.
* Observer callbacks (`onDeathCallbacks`, `onDamageCallbacks`,
  `onStateChangeCallbacks`) are modelled as event logs: at the exact program
  point where the source iterates the callback list, the embedding appends a
  record of what a callback can observe there (for on-damage callbacks, the
  entity's health at that moment).
* `Date.now()` is threaded as an explicit `now : ℚ` argument (milliseconds).
-/

namespace Csrpg

/-! ## Behavior tree engine (src/src/systems/ai/BehaviorTree.ts) -/

/-- `NodeStatus` from BehaviorTree.ts: RUNNING / SUCCESS / FAILURE. -/
inductive NodeStatus where
  | running
  | success
  | failure
deriving DecidableEq, Repr

/-- `DecoratorType` from BehaviorTree.ts. -/
inductive DecoratorType where
  | inverter
  | repeater
  | timeout
  | successRate
  | failureRate
deriving DecidableEq, Repr

/-- A behavior-tree node over a mutable evaluation state `σ`.
`BTCondition` holds a pure predicate on the state; `BTAction` holds a
side-effecting step returning the updated state and a status (the execution
state `σ` stands for the context/entity pair the source closures capture). -/
inductive BTNode (σ : Type) where
  | seq (name : String) (children : List (BTNode σ))
  | sel (name : String) (children : List (BTNode σ))
  | cond (name : String) (p : σ → Bool)
  | act (name : String) (f : σ → σ × NodeStatus)
  | deco (name : String) (kind : DecoratorType) (child : BTNode σ)

/-- Status mapping of `BTDecorator.execute` applied to the child's result:
INVERTER swaps SUCCESS/FAILURE and passes RUNNING through; SUCCESS_RATE /
FAILURE_RATE report the fixed status; other kinds pass the result through
(default branch). -/
def applyDecorator (kind : DecoratorType) (result : NodeStatus) : NodeStatus :=
  match kind with
  | .inverter =>
      match result with
      | .success => .failure
      | .failure => .success
      | .running => .running
  | .successRate => .success
  | .failureRate => .failure
  | _ => result

mutual

/-- `execute(context)` of the node classes in BehaviorTree.ts.  Returns the
state after all side effects together with the node's status.  A decorator
always executes its child first and only post-processes the returned status. -/
def BTNode.exec {σ : Type} : BTNode σ → σ → σ × NodeStatus
  | .seq _ children, s => execSeqChildren children s
  | .sel _ children, s => execSelChildren children s
  | .cond _ p, s => (s, if p s then .success else .failure)
  | .act _ f, s => f s
  | .deco _ kind child, s =>
      let r := BTNode.exec child s
      (r.1, applyDecorator kind r.2)

/-- `BTSequence.execute`: children in order; FAILURE or RUNNING short-circuit;
SUCCESS only if all children succeed (empty list succeeds). -/
def execSeqChildren {σ : Type} : List (BTNode σ) → σ → σ × NodeStatus
  | [], s => (s, .success)
  | c :: cs, s =>
      match BTNode.exec c s with
      | (s', .failure) => (s', .failure)
      | (s', .running) => (s', .running)
      | (s', .success) => execSeqChildren cs s'

/-- `BTSelector.execute`: children in order; SUCCESS or RUNNING short-circuit;
FAILURE only if all children fail (empty list fails). -/
def execSelChildren {σ : Type} : List (BTNode σ) → σ → σ × NodeStatus
  | [], s => (s, .failure)
  | c :: cs, s =>
      match BTNode.exec c s with
      | (s', .success) => (s', .success)
      | (s', .running) => (s', .running)
      | (s', .failure) => execSelChildren cs s'

end

/-! ## Basic data (src/unnamed/part_008, AICharacter.ts) -/

/-- `AIState` enumeration. -/
inductive AIState where
  | idle
  | patrol
  | chase
  | attack
  | retreat
  | cover
  | dead
  | stunned
deriving DecidableEq, Repr

/-- `AICharacterType` enumeration. -/
inductive AICharacterType where
  | grunt
  | soldier
  | heavy
  | bomber
  | boss
deriving DecidableEq, Repr

/-- THREE.Vector3, componentwise exact model. -/
structure Vec3 where
  x : ℚ
  y : ℚ
  z : ℚ
deriving DecidableEq, Repr

def Vec3.zero : Vec3 := ⟨0, 0, 0⟩

def Vec3.sub (a b : Vec3) : Vec3 := ⟨a.x - b.x, a.y - b.y, a.z - b.z⟩

def Vec3.add (a b : Vec3) : Vec3 := ⟨a.x + b.x, a.y + b.y, a.z + b.z⟩

def Vec3.scale (k : ℚ) (a : Vec3) : Vec3 := ⟨k * a.x, k * a.y, k * a.z⟩

/-- Oracle for the float geometry used by movement and perception code:
`norm v` stands for `v.length()`, `normalize v` for `v.normalize()`,
`atan2 x z` for `Math.atan2(x, z)` and `lerp a b t` for
`THREE.MathUtils.lerp(a, b, t)`.  No properties are assumed; every theorem
quantifies over an arbitrary `Geo`. -/
structure Geo where
  norm : Vec3 → ℚ
  normalize : Vec3 → Vec3
  atan2 : ℚ → ℚ → ℚ
  lerp : ℚ → ℚ → ℚ → ℚ

/-- `a.distanceTo(b)` of THREE.Vector3 (length of the difference). -/
def Geo.dist (geo : Geo) (a b : Vec3) : ℚ := geo.norm (Vec3.sub a b)

/-- `MovementConfig` (AICharacter.ts). -/
structure MovementConfig where
  walkSpeed : ℚ
  runSpeed : ℚ
  patrolSpeed : ℚ
  rotationSpeed : ℚ
  acceleration : ℚ
  deceleration : ℚ
  minDistance : ℚ
  maxDistance : ℚ
  retreatDistance : ℚ
deriving DecidableEq, Repr

/-- `DEFAULT_MOVEMENT` (AICharacter.ts). -/
def DEFAULT_MOVEMENT : MovementConfig :=
  { walkSpeed := 2, runSpeed := 4, patrolSpeed := 3/2, rotationSpeed := 5,
    acceleration := 10, deceleration := 8, minDistance := 5, maxDistance := 20,
    retreatDistance := 3/10 }

/-- `AIConfig` (AICharacter.ts).  The source merges
`Partial<PerceptionData>` over `DEFAULT_PERCEPTION` (hearingRange 30,
viewAngle π/3, viewDistance 40); that static perception tuning is consumed
only by `checkLineOfSight`, which is float trigonometry abstracted below as
the per-tick line-of-sight oracle, so the tuning fields (some π-valued, hence
not rational) are not carried in the embedding.  `movement` is the merged
`{...DEFAULT_MOVEMENT, ...config.movement}` record. -/
structure AIConfig where
  charType : AICharacterType
  health : ℚ
  armor : ℚ
  damage : ℚ
  movement : MovementConfig
  patrolPoints : List Vec3 := []
  coverSpots : List Vec3 := []
deriving DecidableEq, Repr

/-- The mutable state of `AICharacter` (src/unnamed/part_008).

Transcription notes:
* `rotY` models `rotation.y`: every write in the source touches only the Euler's
  `y` component, and `x`/`z` stay 0 from construction.
* `hasMesh` models `mesh !== null`; when a mesh is attached the source aliases
  `this.position` to `mesh.position`, so velocity integration moves
  `position`; without a mesh it does not.
* `hasTarget` models `this.target !== null`; the target object's live position
  is supplied per call where the source dereferences `target.position`.
* `perceptionDist : Option ℚ` — `none` stands for `Infinity`.
* `damageObs` logs, at the program point where `onDamageCallbacks` are
  invoked, the pair (callback argument `amount`, `this.health` at that
  moment); `deathObs` logs `this.health` at the point `onDeathCallbacks` are
  invoked; `stateChangeObs` logs the `(newState, oldState)` notifications.
  One log entry per callback-list iteration (observers see all of them).
* `attackObs` logs the `now` timestamp of each `performAttack()` invocation.
* The decision tree owned by the entity (`createEnemyBehaviorTree()`, built
  once in the constructor) is fixed data; it is represented by the concrete
  tree `enemyTreeRoot` used inside `update`, not stored in the state. -/
structure Entity where
  charType : AICharacterType
  position : Vec3
  rotY : ℚ
  velocity : Vec3
  health : ℚ
  maxHealth : ℚ
  armor : ℚ
  damage : ℚ
  state : AIState
  previousState : AIState
  isAlive : Bool
  isStunned : Bool
  stunTime : ℚ
  hasMesh : Bool
  hasTarget : Bool
  lastKnownTargetPosition : Vec3
  perceptionLos : Bool
  perceptionDist : Option ℚ
  lastSeenTime : ℚ
  movement : MovementConfig
  patrolPoints : List Vec3
  currentPatrolIndex : ℤ
  patrolWaitTime : ℚ
  patrolDirection : ℤ
  coverSpots : List Vec3
  currentCoverSpot : Option Vec3
  coverTimer : ℚ
  attackCooldown : ℚ
  attackRate : ℚ
  lastAttackTime : ℚ
  damageObs : List (ℚ × ℚ)
  deathObs : List ℚ
  stateChangeObs : List (AIState × AIState)
  attackObs : List ℚ
deriving DecidableEq, Repr

/-- The `AICharacter` constructor: stats from the config, health = maxHealth
= config.health, state IDLE, alive, not stunned, timers zero. -/
def mkAICharacter (config : AIConfig) : Entity :=
  { charType := config.charType
    position := Vec3.zero
    rotY := 0
    velocity := Vec3.zero
    health := config.health
    maxHealth := config.health
    armor := config.armor
    damage := config.damage
    state := .idle
    previousState := .idle
    isAlive := true
    isStunned := false
    stunTime := 0
    hasMesh := false
    hasTarget := false
    lastKnownTargetPosition := Vec3.zero
    perceptionLos := false
    perceptionDist := none
    lastSeenTime := 0
    movement := config.movement
    patrolPoints := config.patrolPoints
    currentPatrolIndex := 0
    patrolWaitTime := 0
    patrolDirection := 1
    coverSpots := config.coverSpots
    currentCoverSpot := none
    coverTimer := 0
    attackCooldown := 0
    attackRate := 1
    lastAttackTime := 0
    damageObs := []
    deathObs := []
    stateChangeObs := []
    attackObs := [] }

/-- `onEnterState`: entering PATROL zeroes velocity; entering COVER resets
the cover timer. -/
def onEnterState (state : AIState) (e : Entity) : Entity :=
  match state with
  | .patrol => { e with velocity := Vec3.zero }
  | .cover => { e with coverTimer := 0 }
  | _ => e

/-- `onExitState`: leaving COVER clears the active cover spot. -/
def onExitState (state : AIState) (e : Entity) : Entity :=
  match state with
  | .cover => { e with currentCoverSpot := none }
  | _ => e

/-- `setState`: no-op on the same state; otherwise records previousState,
switches, runs `onExitState(old)` then `onEnterState(new)`, then notifies the
state-change observers with `(newState, oldState)`. -/
def setState (newState : AIState) (e : Entity) : Entity :=
  if e.state = newState then e
  else
    let oldState := e.state
    let e1 := { e with previousState := oldState, state := newState }
    let e2 := onExitState oldState e1
    let e3 := onEnterState newState e2
    { e3 with stateChangeObs := e3.stateChangeObs ++ [(newState, oldState)] }

/-- `stop()`: zero the velocity. -/
def stop (e : Entity) : Entity := { e with velocity := Vec3.zero }

/-- `die()`: alive := false, health := 0, state := DEAD, zero velocity, then
fire the death callbacks (log the health visible to them, which is 0). -/
def die (e : Entity) : Entity :=
  let e1 := { e with isAlive := false, health := 0 }
  let e2 := setState .dead e1
  let e3 := stop e2
  { e3 with deathObs := e3.deathObs ++ [e3.health] }

/-- `stun(duration)`: mark stunned, arm the timer, force state STUNNED
(recording the pre-stun state as `previousState`), zero velocity. -/
def stun (duration : ℚ) (e : Entity) : Entity :=
  let e1 := { e with isStunned := true, stunTime := duration }
  let e2 := setState .stunned e1
  stop e2

/-- `findNearestCover()`: linear scan of `coverSpots` keeping the strictly
nearest spot (`dist < nearestDist`, initial distance Infinity). -/
def findNearestCover (geo : Geo) (e : Entity) : Option Vec3 :=
  (e.coverSpots.foldl
    (fun (best : Option (Vec3 × ℚ)) c =>
      let d := geo.dist e.position c
      match best with
      | none => some (c, d)
      | some (_, bd) => if d < bd then some (c, d) else best)
    none).map (·.1)

/-- `takeDamage(amount, source)` of the base class:
dead entities return immediately; armor (when positive) absorbs
`min(armor, amount*0.5)` (`armorAbsorb` names that block and returns the
post-absorption entity with the remaining damage); health is reduced by the
remainder; the damage
callbacks fire (observing the possibly negative interim health); health ≤ 0
triggers `die()`; finally, a SOLDIER-typed entity with armor left moves to
the nearest cover spot (sets `currentCoverSpot` then state COVER —
`soldierCoverStep` names that trailing block). -/
def soldierCoverStep (geo : Geo) (e : Entity) : Entity :=
  if 0 < e.armor ∧ e.charType = .soldier then
    match findNearestCover geo e with
    | some cover => setState .cover { e with currentCoverSpot := some cover }
    | none => e
  else e

def armorAbsorb (amount : ℚ) (e : Entity) : Entity × ℚ :=
  if 0 < e.armor then
    let armorDamage := min e.armor (amount * (1/2))
    ({ e with armor := e.armor - armorDamage }, amount - armorDamage)
  else (e, amount)

def takeDamage (geo : Geo) (amount : ℚ) (e : Entity) : Entity :=
  if e.isAlive = false then e
  else
    let p : Entity × ℚ := armorAbsorb amount e
    let e2 : Entity := { p.1 with health := p.1.health - p.2 }
    let e3 : Entity := { e2 with damageObs := e2.damageObs ++ [(amount, e2.health)] }
    let e4 : Entity := if e3.health ≤ 0 then die e3 else e3
    soldierCoverStep geo e4

/-- `moveToward(targetPos, speed, deltaTime)`: horizontal steering.  The
direction is the difference with `y` zeroed; above the 0.1 dead-zone the
entity lerps its yaw toward `atan2(direction.x, direction.z)` and sets the
horizontal velocity to `direction.normalize() * speed`; otherwise the
horizontal velocity is zeroed (the `y` component is untouched). -/
def moveToward (geo : Geo) (targetPos : Vec3) (speed dt : ℚ) (e : Entity) : Entity :=
  let direction : Vec3 := ⟨targetPos.x - e.position.x, 0, targetPos.z - e.position.z⟩
  if geo.norm direction > 1/10 then
    let dirN := geo.normalize direction
    let targetRotation := geo.atan2 dirN.x dirN.z
    { e with rotY := geo.lerp e.rotY targetRotation (e.movement.rotationSpeed * dt),
             velocity := ⟨dirN.x * speed, e.velocity.y, dirN.z * speed⟩ }
  else
    { e with velocity := ⟨0, e.velocity.y, 0⟩ }

/-- `onRetreat()`: just switch to RETREAT. -/
def onRetreat (e : Entity) : Entity := setState .retreat e

/-- `onApproachTarget(target)`: beyond `maxDistance` chase at run speed;
inside `minDistance` back off by half a unit direction at walk speed;
otherwise switch to ATTACK.  `tpos` is the live `target.position`. -/
def onApproachTarget (geo : Geo) (tpos : Vec3) (e : Entity) : Entity :=
  let distance := geo.dist e.position tpos
  if distance > e.movement.maxDistance then
    let e1 := setState .chase e
    moveToward geo tpos e1.movement.runSpeed (1/60) e1
  else if distance < e.movement.minDistance then
    let retreatDir := Vec3.scale (1/2) (geo.normalize (Vec3.sub e.position tpos))
    moveToward geo (Vec3.add e.position retreatDir) e.movement.walkSpeed (1/60) e
  else
    setState .attack e

/-- `onAttack(target)`: switch to ATTACK; if the 1000/attackRate ms cooldown
has elapsed, `performAttack()` (base implementation only logs — recorded in
`attackObs`) and stamp `lastAttackTime`. -/
def onAttack (now : ℚ) (e : Entity) : Entity :=
  let e1 := setState .attack e
  if now - e1.lastAttackTime > 1000 / e1.attackRate then
    { e1 with attackObs := e1.attackObs ++ [now], lastAttackTime := now }
  else e1

/-- `onPatrol()`: switch to PATROL (IDLE when no patrol points); honour the
wait timer; on reaching a waypoint (distance < 1) step the index ping-pong
style (`patrolStepIndex` names the inline index/direction block) and wait
2 s, otherwise walk toward the waypoint at patrol speed.
The source indexes `patrolPoints[currentPatrolIndex]` which is always in
bounds along reachable traces; the embedding totalises with `getD`. -/
def patrolStepIndex (e : Entity) : Entity :=
  let idx := e.currentPatrolIndex + e.patrolDirection
  if idx ≥ (e.patrolPoints.length : ℤ) then
    { e with currentPatrolIndex := (e.patrolPoints.length : ℤ) - 1,
             patrolDirection := -1 }
  else if idx < 0 then
    { e with currentPatrolIndex := 0, patrolDirection := 1 }
  else
    { e with currentPatrolIndex := idx }

def onPatrol (geo : Geo) (e : Entity) : Entity :=
  let e := setState .patrol e
  if e.patrolPoints = [] then setState .idle e
  else if e.patrolWaitTime > 0 then
    { e with patrolWaitTime := e.patrolWaitTime - 1/60 }
  else
    let targetPoint := e.patrolPoints.getD e.currentPatrolIndex.toNat Vec3.zero
    if geo.dist e.position targetPoint < 1 then
      { patrolStepIndex e with patrolWaitTime := 2 }
    else
      moveToward geo targetPoint e.movement.patrolSpeed (1/60) e

/-- `updatePerception(deltaTime)`: without a target (or dead) clear
line-of-sight and set the distance to Infinity; otherwise store the current
distance, evaluate `checkLineOfSight()` — float cone geometry, supplied as
the per-tick oracle `los` — and on sight refresh the last-known position and
the `Date.now()` timestamp. -/
def updatePerception (geo : Geo) (los : Bool) (now : ℚ) (tgt : Option Vec3)
    (e : Entity) : Entity :=
  match tgt with
  | none => { e with perceptionLos := false, perceptionDist := none }
  | some tpos =>
      if e.isAlive = false then
        { e with perceptionLos := false, perceptionDist := none }
      else
        let e1 := { e with perceptionDist := some (geo.dist e.position tpos) }
        let e2 := { e1 with perceptionLos := los }
        if los then
          { e2 with lastKnownTargetPosition := tpos, lastSeenTime := now }
        else e2

/-- The slice of `BTContext` read by the trees in this repository.  It is the
per-tick snapshot built by `createBTContext()`: conditions read this snapshot
while actions mutate the live entity (`ctx.self`). -/
structure BTCtx where
  isAlive : Bool
  health : ℚ
  maxHealth : ℚ
  hasLineOfSight : Bool
  target : Option Vec3

/-- `createEnemyBehaviorTree()` (BehaviorTree.ts): retreat when health is
below 30% of max, else approach/attack when there is line of sight, else
patrol.  The `ctx.target!` non-null assertion would throw on a null target in
the source; that point is unreachable (`hasLineOfSight` is false without a
target) and the embedding maps it to the identity. -/
def enemyTreeRoot (geo : Geo) (now : ℚ) : BTNode (BTCtx × Entity) :=
  .sel "root" [
    .seq "retreatWhenLowHealth" [
      .cond "isHealthLow" (fun s => s.1.health < s.1.maxHealth * (3/10)),
      .act "retreat" (fun s => ((s.1, onRetreat s.2), .success))],
    .seq "attackWhenVisible" [
      .cond "hasLineOfSight" (fun s => s.1.hasLineOfSight),
      .act "approach" (fun s =>
        ((s.1, match s.1.target with
               | some t => onApproachTarget geo t s.2
               | none => s.2), .running)),
      .act "attack" (fun s =>
        ((s.1, match s.1.target with
               | some _ => onAttack now s.2
               | none => s.2), .success))],
    .act "patrol" (fun s => ((s.1, onPatrol geo s.2), .success))]

/-- `AICharacter.update(deltaTime)`: dead entities return; stunned entities
only tick the stun timer down and, once it reaches 0, restore the pre-stun
state (nothing else runs that tick); otherwise perception is refreshed, the
behavior tree is evaluated on a fresh context (`BehaviorTree.update` bails
out with FAILURE when the context snapshot says dead — unreachable here), and
the velocity is integrated into the mesh/position. -/
def tickStunned (dt : ℚ) (e : Entity) : Entity :=
  let e1 := { e with stunTime := e.stunTime - dt }
  if e1.stunTime ≤ 0 then
    setState e1.previousState { e1 with isStunned := false }
  else e1

/-- The un-stunned part of `AICharacter.update`: perception refresh, behavior
tree on a fresh context snapshot (`BehaviorTree.update` bails out with
FAILURE when the snapshot says dead — unreachable from `update`), velocity
integration into the mesh-aliased position. -/
def tickMain (geo : Geo) (los : Bool) (now : ℚ) (tgt : Option Vec3) (dt : ℚ)
    (e : Entity) : Entity :=
  let e1 := updatePerception geo los now tgt e
  let ctx : BTCtx :=
    { isAlive := e1.isAlive, health := e1.health, maxHealth := e1.maxHealth,
      hasLineOfSight := e1.perceptionLos, target := tgt }
  let e2 :=
    if ctx.isAlive = false then e1
    else ((enemyTreeRoot geo now).exec (ctx, e1)).1.2
  if e2.hasMesh then
    { e2 with position := ⟨e2.position.x + e2.velocity.x * dt, e2.position.y,
                           e2.position.z + e2.velocity.z * dt⟩ }
  else e2

def update (geo : Geo) (los : Bool) (now : ℚ) (tgt : Option Vec3) (dt : ℚ)
    (e : Entity) : Entity :=
  if e.isAlive = false then e
  else if e.isStunned then tickStunned dt e
  else tickMain geo los now tgt dt e

/-! ## Elite soldier (src/unnamed/part_007, Enemy/Soldier.ts) -/

/-- `SOLDIER_CONFIG`: health 120, armor 30, damage 20, engagement band
[8, 30], retreatDistance 0.4 (the 40% low-health fraction). -/
def SOLDIER_CONFIG : AIConfig :=
  { charType := .soldier, health := 120, armor := 30, damage := 20,
    movement :=
      { walkSpeed := 5/2, runSpeed := 4, patrolSpeed := 3/2, rotationSpeed := 8,
        acceleration := 12, deceleration := 15, minDistance := 8,
        maxDistance := 30, retreatDistance := 2/5 } }

/-- `CoverState` (Soldier.ts). -/
structure CoverState where
  position : Vec3
  quality : ℚ
  direction : Vec3
deriving DecidableEq, Repr

/-- The `Math.random()` draws a single soldier call can consume, supplied as
an oracle: `searchQuality` for `searchForCover`, `selectQuality i` for the
i-th spot in `selectBestCover`, `coverStay` for the cover dwell time,
`reposDelay`/`repoIndex` for `tacticalReposition` scheduling and spot choice,
`grenadeJx`/`grenadeJz`/`grenadeCd` for `throwGrenade`.  All draws lie in
[0, 1) in the source; no theorem assumes anything about them. -/
structure SoldierRand where
  searchQuality : ℚ
  selectQuality : ℕ → ℚ
  coverStay : ℚ
  reposDelay : ℚ
  repoIndex : ℕ
  grenadeJx : ℚ
  grenadeJz : ℚ
  grenadeCd : ℚ

/-- Mutable state of `Soldier` on top of the base entity. -/
structure Soldier where
  ent : Entity
  coverState : Option CoverState
  coverSearchTimer : ℚ
  suppressTimer : ℚ
  repositionTimer : ℚ
  grenadeCooldown : ℚ
  prefersHighCover : Bool
  usesGrenades : Bool
  suppressesEnemy : Bool
  isSuppressing : Bool
  burstCount : ℚ
  burstSize : ℚ
  grenadeObs : List Vec3

/-- The `Soldier` constructor: base entity from `SOLDIER_CONFIG`, optional
spawn position and cover-spot list, 3-round burst size.  (The tactical
behavior tree it builds replaces `this.behaviorTree`, but `Soldier.update`
never evaluates it; it is dead data and not modelled.) -/
def mkSoldier (pos : Option Vec3) (coverSpots : Option (List Vec3)) : Soldier :=
  let base := mkAICharacter SOLDIER_CONFIG
  let base := match pos with
    | some p => { base with position := p }
    | none => base
  let base := match coverSpots with
    | some cs => { base with coverSpots := cs }
    | none => base
  { ent := base, coverState := none, coverSearchTimer := 0, suppressTimer := 0,
    repositionTimer := 0, grenadeCooldown := 0, prefersHighCover := true,
    usesGrenades := true, suppressesEnemy := true, isSuppressing := false,
    burstCount := 0, burstSize := 3, grenadeObs := [] }

/-- `updateTimers(deltaTime)`: each positive timer is decremented by dt. -/
def updateTimers (dt : ℚ) (s : Soldier) : Soldier :=
  let s := if s.coverSearchTimer > 0 then { s with coverSearchTimer := s.coverSearchTimer - dt } else s
  let s := if s.suppressTimer > 0 then { s with suppressTimer := s.suppressTimer - dt } else s
  let s := if s.repositionTimer > 0 then { s with repositionTimer := s.repositionTimer - dt } else s
  if s.grenadeCooldown > 0 then { s with grenadeCooldown := s.grenadeCooldown - dt } else s

/-- `shouldSeekCover()`: health below `maxHealth * movementConfig.retreatDistance`
(0.4 for the soldier config), or suppression timer above 2 s. -/
def shouldSeekCover (s : Soldier) : Bool :=
  if s.ent.health < s.ent.maxHealth * s.ent.movement.retreatDistance then true
  else if s.suppressTimer > 2 then true
  else false

/-- `searchForCover()`: the direction loop returns on its first iteration, so
the result is always the probe 3 units along +x; `dir.multiplyScalar(3)`
mutates `dir`, so the stored away-facing is `(-3, 0, 0)`; quality is
`random()*0.5 + 0.5`. -/
def searchForCover (rnd : SoldierRand) (s : Soldier) : Option CoverState :=
  some { position := Vec3.add s.ent.position ⟨3, 0, 0⟩,
         quality := rnd.searchQuality * (1/2) + 1/2,
         direction := ⟨-3, 0, 0⟩ }

/-- `selectBestCover()`: null without a target; otherwise the spot maximising
`(10 − distToCover)·0.3 + (distToEnemy − maxDistance)·0.5 + quality·0.2`
(strict improvement over the running best, which starts at −Infinity, so the
first spot always installs itself). -/
def selectBestCover (geo : Geo) (rnd : SoldierRand) (tgt : Option Vec3)
    (s : Soldier) : Option CoverState :=
  match tgt with
  | none => none
  | some tpos =>
      ((s.ent.coverSpots.foldl
        (fun (acc : ℕ × Option (CoverState × ℚ)) coverPos =>
          let i := acc.1
          let best := acc.2
          let distToCover := geo.dist s.ent.position coverPos
          let distToEnemy := geo.dist coverPos tpos
          let distScore := 10 - distToCover
          let enemyDistScore := distToEnemy - s.ent.movement.maxDistance
          let quality := 1/2 + rnd.selectQuality i * (1/2)
          let totalScore := distScore * (3/10) + enemyDistScore * (1/2) + quality * (1/5)
          let keep :=
            match best with
            | none => true
            | some (_, bestScore) => totalScore > bestScore
          if keep then
            (i + 1, some ({ position := coverPos, quality := quality,
                            direction := geo.normalize (Vec3.sub tpos coverPos) },
                          totalScore))
          else (i + 1, best))
        (0, none)).2).map (·.1)

/-- `moveToCover(coverPosition)`: run toward the spot while more than half a
unit away (yaw lerp + velocity), else stop and dwell `2 + random()*2` s. -/
def moveToCover (geo : Geo) (rnd : SoldierRand) (coverPosition : Vec3)
    (s : Soldier) : Soldier :=
  let direction : Vec3 :=
    ⟨coverPosition.x - s.ent.position.x, 0, coverPosition.z - s.ent.position.z⟩
  if geo.norm direction > 1/2 then
    let dirN := geo.normalize direction
    let targetRotation := geo.atan2 dirN.x dirN.z
    { s with ent :=
        { s.ent with
            rotY := geo.lerp s.ent.rotY targetRotation
                      (s.ent.movement.rotationSpeed * (1/60)),
            velocity := ⟨dirN.x * s.ent.movement.runSpeed, s.ent.velocity.y,
                         dirN.z * s.ent.movement.runSpeed⟩ } }
  else
    { s with ent := { s.ent with velocity := Vec3.zero,
                                 coverTimer := 2 + rnd.coverStay * 2 } }

/-- `findAndMoveToCover()`: force state COVER, pick a cover (probe fallback
without a preset list, weighted best otherwise), store it and move to it. -/
def findAndMoveToCover (geo : Geo) (rnd : SoldierRand) (tgt : Option Vec3)
    (s : Soldier) : Soldier :=
  let s := { s with ent := setState .cover s.ent }
  let cs :=
    if s.ent.coverSpots = [] then searchForCover rnd s
    else selectBestCover geo rnd tgt s
  let s := { s with coverState := cs }
  match cs with
  | some c => moveToCover geo rnd c.position s
  | none => s

/-- `performBurstFire()`: refill the burst counter when it has run out, set
the intra-burst cooldown 0.15 s, and fire (performAttack + decrement +
timestamp) when `Date.now() − lastAttackTime` exceeds `attackCooldown·1000`
ms.  Because the refill happens before the `burstCount > 0` check, the
`else` branch that would set the 0.5 s inter-burst pause is unreachable
whenever `burstSize > 0`. -/
def performBurstFire (now : ℚ) (s : Soldier) : Soldier :=
  let s := if s.burstCount ≤ 0 then { s with burstCount := s.burstSize } else s
  if s.burstCount > 0 then
    let s := { s with ent := { s.ent with attackCooldown := 3/20 } }
    if now - s.ent.lastAttackTime > s.ent.attackCooldown * 1000 then
      { s with ent := { s.ent with attackObs := s.ent.attackObs ++ [now],
                                   lastAttackTime := now },
               burstCount := s.burstCount - 1 }
    else s
  else
    { s with ent := { s.ent with attackCooldown := 1/2 } }

/-- `moveWithCover(direction, speed)`: yaw lerp plus straight-line velocity. -/
def moveWithCover (geo : Geo) (direction : Vec3) (speed : ℚ) (s : Soldier) : Soldier :=
  let targetRotation := geo.atan2 direction.x direction.z
  { s with ent :=
      { s.ent with
          rotY := geo.lerp s.ent.rotY targetRotation
                    (s.ent.movement.rotationSpeed * (1/60)),
          velocity := ⟨direction.x * speed, s.ent.velocity.y, direction.z * speed⟩ } }

/-- `tacticalAdvance()`: approach with a 0.3 lateral bias, at walk speed. -/
def tacticalAdvance (geo : Geo) (tgt : Option Vec3) (s : Soldier) : Soldier :=
  match tgt with
  | none => s
  | some tpos =>
      let d0 : Vec3 := ⟨tpos.x - s.ent.position.x, 0, tpos.z - s.ent.position.z⟩
      let direction := geo.normalize d0
      let lateral : Vec3 := ⟨-direction.z, 0, direction.x⟩
      let combined := Vec3.add direction (Vec3.scale (3/10) lateral)
      moveWithCover geo (geo.normalize combined) s.ent.movement.walkSpeed s

/-- `tacticalRetreat()`: walk straight away from the target. -/
def tacticalRetreat (geo : Geo) (tgt : Option Vec3) (s : Soldier) : Soldier :=
  match tgt with
  | none => s
  | some tpos =>
      let d0 : Vec3 := ⟨s.ent.position.x - tpos.x, 0, s.ent.position.z - tpos.z⟩
      moveWithCover geo (geo.normalize d0) s.ent.movement.walkSpeed s

/-- `tacticalReposition()`: with a target and preset spots, pick a random
spot and, if it is more than 2 units away, set it as the active cover spot
and move to it.  The `Math.floor(random()*length)` index draw is modelled as
`repoIndex % length`. -/
def tacticalReposition (geo : Geo) (rnd : SoldierRand) (tgt : Option Vec3)
    (s : Soldier) : Soldier :=
  if tgt = none ∨ s.ent.coverSpots = [] then s
  else
    let newPos := s.ent.coverSpots.getD (rnd.repoIndex % s.ent.coverSpots.length)
                    Vec3.zero
    if geo.dist newPos s.ent.position > 2 then
      let s := { s with ent := { s.ent with currentCoverSpot := some newPos } }
      moveToCover geo rnd newPos s
    else s

/-- `throwGrenade()`: within 25 units, log the jittered landing point
(±1.5 units of the target) and start the 8–12 s cooldown. -/
def throwGrenade (geo : Geo) (rnd : SoldierRand) (tgt : Option Vec3)
    (s : Soldier) : Soldier :=
  match tgt with
  | none => s
  | some tpos =>
      if geo.dist s.ent.position tpos > 25 then s
      else
        let landing : Vec3 :=
          ⟨tpos.x + (rnd.grenadeJx - 1/2) * 3, tpos.y, tpos.z + (rnd.grenadeJz - 1/2) * 3⟩
        { s with grenadeObs := s.grenadeObs ++ [landing],
                 grenadeCooldown := 8 + rnd.grenadeCd * 4 }

/-- Comparison helpers for the stored `perception.distanceToTarget`, whose
`none` stands for the float `Infinity` (`Infinity > x` is true,
`Infinity < x` is false). -/
def infGt (d : Option ℚ) (x : ℚ) : Bool :=
  match d with
  | none => true
  | some v => v > x

def infLt (d : Option ℚ) (x : ℚ) : Bool :=
  match d with
  | none => false
  | some v => v < x

/-- `executeTacticalAI(deltaTime)`: cover first when `shouldSeekCover()`;
otherwise hold the ideal band midpoint — chase beyond 1.2× the midpoint,
retreat inside `minDistance`, else attack with burst fire and an occasional
reposition; finally a grenade attempt when its cooldown and range allow. -/
def executeTacticalAI (geo : Geo) (rnd : SoldierRand) (now : ℚ)
    (tgt : Option Vec3) (s : Soldier) : Soldier :=
  let distance := s.ent.perceptionDist
  if shouldSeekCover s then findAndMoveToCover geo rnd tgt s
  else
    let idealDistance := (s.ent.movement.minDistance + s.ent.movement.maxDistance) / 2
    let s :=
      if infGt distance (idealDistance * (6/5)) then
        let s := { s with ent := setState .chase s.ent }
        tacticalAdvance geo tgt s
      else if infLt distance s.ent.movement.minDistance then
        let s := { s with ent := setState .retreat s.ent }
        tacticalRetreat geo tgt s
      else
        let s := { s with ent := setState .attack s.ent }
        let s := performBurstFire now s
        if s.repositionTimer ≤ 0 then
          let s := tacticalReposition geo rnd tgt s
          { s with repositionTimer := 3 + rnd.reposDelay * 2 }
        else s
    if s.usesGrenades ∧ s.grenadeCooldown ≤ 0 ∧ infLt distance 25 then
      throwGrenade geo rnd tgt s
    else s

/-- `Soldier.takeDamage(amount, source)`: the base pipeline runs first, the
suppression timer gains 1.0 s per damage instance (even when the base call
returned early because the soldier is dead), and when the post-call health is
below 50% of max while the state is not COVER the soldier moves to cover
within the same call. -/
def soldierTakeDamage (geo : Geo) (rnd : SoldierRand) (tgt : Option Vec3)
    (amount : ℚ) (s : Soldier) : Soldier :=
  let s := { s with ent := takeDamage geo amount s.ent }
  let s := { s with suppressTimer := s.suppressTimer + 1 }
  if s.ent.health < s.ent.maxHealth * (1/2) ∧ s.ent.state ≠ .cover then
    findAndMoveToCover geo rnd tgt s
  else s

/-! ## Boss orchestrator (src/unnamed/part_006, Boss/BossBase.ts) -/

/-- `BossPhaseConfig`: the `onEnter`/`onExit` hooks are external closures
whose invocations carry no state back into this core; phase-change
notifications are logged on the boss state instead. -/
structure BossPhaseConfig where
  phaseName : String
  health : ℚ
  damageMultiplier : ℚ
  speedMultiplier : ℚ
  mechanics : List String := []
deriving DecidableEq, Repr, Inhabited

/-- `BossConfig extends AIConfig` with the phase list and enrage tuning;
`enrageEffects` defaults to ×1.5 damage / ×1.3 speed when absent.  The intro
and victory dialogue lines are opaque display strings, never read by the
verified logic, and are omitted. -/
structure BossConfig where
  base : AIConfig
  phases : List BossPhaseConfig
  enrageThreshold : ℚ
  enrageEffects : Option (ℚ × ℚ) := none
deriving DecidableEq, Repr

/-- `DEFAULT_BOSS_MOVEMENT` (BossBase.ts). -/
def DEFAULT_BOSS_MOVEMENT : MovementConfig :=
  { walkSpeed := 3/2, runSpeed := 3, patrolSpeed := 1, rotationSpeed := 2,
    acceleration := 5, deceleration := 5, minDistance := 5, maxDistance := 15,
    retreatDistance := 1/10 }

/-- `calculatePhaseThresholds` inner loop: cons `1 − accumulated/totalHealth`
for each phase, with the running cumulative health. -/
def calcThresholdsGo (totalHealth : ℚ) : List BossPhaseConfig → ℚ → List ℚ
  | [], _ => []
  | p :: rest, accumulated =>
      let acc := accumulated + p.health
      (1 - acc / totalHealth) :: calcThresholdsGo totalHealth rest acc

/-- `calculatePhaseThresholds()`: thresholds `1 − cumulative/total` computed
once at construction. -/
def calculatePhaseThresholds (phases : List BossPhaseConfig) : List ℚ :=
  let totalHealth := (phases.map (·.health)).sum
  calcThresholdsGo totalHealth phases 0

/-- Mutable state of `BossBase` on top of the base entity.  `phaseChangeObs`
logs the `events.onPhaseChange(index, name)` notifications, `enrageObs`
counts `events.onEnrage()` firings and `specialObs` logs
`events.onSpecialAttack(name)`. -/
structure Boss where
  ent : Entity
  phases : List BossPhaseConfig
  currentPhaseIndex : ℕ
  phaseHealthThresholds : List ℚ
  isEnraged : Bool
  enrageThreshold : ℚ
  enrageDamageMultiplier : ℚ
  enrageSpeedMultiplier : ℚ
  specialAttackCooldown : ℚ
  currentSpecialAttack : Option String
  isPerformingSpecial : Bool
  hitCount : ℕ
  phaseChangeObs : List (ℕ × String)
  enrageObs : ℕ
  specialObs : List String
deriving DecidableEq, Repr

/-- The `BossBase` constructor: the base `AICharacter` is initialised from
the config with health (hence also maxHealth) replaced by the FIRST phase's
health budget and damage scaled by the first phase's damage multiplier; the
character type becomes BOSS; thresholds are precomputed; enrage tuning is
installed.  The source reads `config.phases[0]`, which throws on an empty
phase list; the embedding uses the head with a default, and every theorem
instantiates a nonempty list.  The movement merge
`{...DEFAULT_BOSS_MOVEMENT, ...config.movement}` is the identity for the
fully-populated movement records used in this repository. -/
def mkBoss (config : BossConfig) : Boss :=
  let initialPhase := config.phases.headI
  let initialConfig : AIConfig :=
    { config.base with
        health := initialPhase.health,
        damage := config.base.damage * initialPhase.damageMultiplier }
  let base := mkAICharacter initialConfig
  let base := { base with charType := .boss }
  { ent := base
    phases := config.phases
    currentPhaseIndex := 0
    phaseHealthThresholds := calculatePhaseThresholds config.phases
    isEnraged := false
    enrageThreshold := config.enrageThreshold
    enrageDamageMultiplier := (config.enrageEffects.getD (3/2, 13/10)).1
    enrageSpeedMultiplier := (config.enrageEffects.getD (3/2, 13/10)).2
    specialAttackCooldown := 0
    currentSpecialAttack := none
    isPerformingSpecial := false
    hitCount := 0
    phaseChangeObs := []
    enrageObs := 0
    specialObs := [] }

/-- `advanceToNextPhase()`: no-op on the last phase; otherwise run the old
phase's exit hook, bump the index, rescale damage and run speed by the ratio
of the new to the old phase multipliers, run the enter hook, and fire the
phase-change event. -/
def advanceToNextPhase (b : Boss) : Boss :=
  if b.currentPhaseIndex + 1 ≥ b.phases.length then b
  else
    let oldPhase := b.phases.getD b.currentPhaseIndex default
    let newIndex := b.currentPhaseIndex + 1
    let newPhase := b.phases.getD newIndex default
    let b := { b with currentPhaseIndex := newIndex }
    let b := { b with ent :=
      { b.ent with
          damage := b.ent.damage * (newPhase.damageMultiplier / oldPhase.damageMultiplier),
          movement := { b.ent.movement with
            runSpeed := b.ent.movement.runSpeed *
              (newPhase.speedMultiplier / oldPhase.speedMultiplier) } } }
    { b with phaseChangeObs := b.phaseChangeObs ++ [(newIndex, newPhase.phaseName)] }

/-- `checkPhaseTransition()`: on the last phase return; otherwise advance one
phase when `health / maxHealth` is at or below the current phase's
threshold. -/
def checkPhaseTransition (b : Boss) : Boss :=
  if b.currentPhaseIndex + 1 ≥ b.phases.length then b
  else
    let healthPercent := b.ent.health / b.ent.maxHealth
    let threshold := b.phaseHealthThresholds.getD b.currentPhaseIndex 0
    if healthPercent ≤ threshold then advanceToNextPhase b else b

/-- `enterEnrage()`: one-way; scales damage and run speed by the enrage
multipliers and fires the enrage event. -/
def enterEnrage (b : Boss) : Boss :=
  if b.isEnraged then b
  else
    let b := { b with isEnraged := true }
    let b := { b with ent :=
      { b.ent with
          damage := b.ent.damage * b.enrageDamageMultiplier,
          movement := { b.ent.movement with
            runSpeed := b.ent.movement.runSpeed * b.enrageSpeedMultiplier } } }
    { b with enrageObs := b.enrageObs + 1 }

/-- `checkEnrage()`: below (or at) the enrage threshold of `health/maxHealth`,
enter enrage once. -/
def checkEnrage (b : Boss) : Boss :=
  if b.isEnraged then b
  else if b.ent.health / b.ent.maxHealth ≤ b.enrageThreshold then enterEnrage b
  else b

/-- `BossBase.takeDamage(amount, source)`: dead bosses return; otherwise
count the hit, run the base damage pipeline, then the phase-transition check,
then the enrage check.  (`BossBase.die` additionally fires `events.onDefeat`,
an external notification with no state effect here.) -/
def bossTakeDamage (geo : Geo) (amount : ℚ) (b : Boss) : Boss :=
  if b.ent.isAlive = false then b
  else
    let b := { b with hitCount := b.hitCount + 1 }
    let b := { b with ent := takeDamage geo amount b.ent }
    let b := checkPhaseTransition b
    checkEnrage b

/-- `reset()`: back to phase 0, full health, not enraged, stats divided by
the first phase's multipliers. -/
def bossReset (b : Boss) : Boss :=
  let b := { b with currentPhaseIndex := 0, isEnraged := false,
                    ent := { b.ent with health := b.ent.maxHealth },
                    isPerformingSpecial := false, currentSpecialAttack := none,
                    hitCount := 0, specialAttackCooldown := 0 }
  let firstPhase := b.phases.headI
  { b with ent :=
      { b.ent with
          damage := b.ent.damage / firstPhase.damageMultiplier,
          movement := { b.ent.movement with
            runSpeed := b.ent.movement.runSpeed / firstPhase.speedMultiplier } } }

/-! ## Concrete boss (src/src/systems/ai/Boss/Trainer.ts) -/

/-- `TRAINER_PHASES`: teaching phase (500 health, ×0.5 damage, ×0.7 speed)
then combat phase (500 health, full multipliers). -/
def TRAINER_PHASES : List BossPhaseConfig :=
  [{ phaseName := "training", health := 500, damageMultiplier := 1/2,
     speedMultiplier := 7/10,
     mechanics := ["demonstration", "duel_invite", "teaching"] },
   { phaseName := "combat", health := 500, damageMultiplier := 1,
     speedMultiplier := 1,
     mechanics := ["combo", "flashbang", "enrage", "aggressive"] }]

/-- `TRAINER_CONFIG`: configured total health 1000 over two 500-health
phases, armor 50, damage 25, 20% enrage threshold.  (Its perception tuning
has viewAngle π·0.7, consumed only by the abstracted line-of-sight check;
the dialogue strings are display-only.) -/
def TRAINER_CONFIG : BossConfig :=
  { base :=
      { charType := .boss, health := 1000, armor := 50, damage := 25,
        movement :=
          { walkSpeed := 2, runSpeed := 9/2, patrolSpeed := 3/2,
            rotationSpeed := 6, acceleration := 8, deceleration := 10,
            minDistance := 5, maxDistance := 25, retreatDistance := 1/5 } }
    phases := TRAINER_PHASES
    enrageThreshold := 1/5
    enrageEffects := some (3/2, 13/10) }

/-! ## Preservation infrastructure

`vitals` collects the combat-critical observables of an entity: health,
maxHealth, armor, liveness, and the two callback logs.  No function on the
tick path (state switches, steering, perception, the behavior tree) touches
any of them; only `takeDamage`/`die` do. -/

def vitals (e : Entity) : ℚ × ℚ × ℚ × Bool × List (ℚ × ℚ) × List ℚ :=
  (e.health, e.maxHealth, e.armor, e.isAlive, e.damageObs, e.deathObs)

mutual

/-- Every `BTAction` inside the tree preserves the observation `g`
(conditions are pure and decorators/composites defer to their members). -/
def PreservesObs {σ α : Type} (g : σ → α) : BTNode σ → Prop
  | .seq _ cs => PreservesObsList g cs
  | .sel _ cs => PreservesObsList g cs
  | .cond _ _ => True
  | .act _ f => ∀ s, g (f s).1 = g s
  | .deco _ _ c => PreservesObs g c

def PreservesObsList {σ α : Type} (g : σ → α) : List (BTNode σ) → Prop
  | [] => True
  | c :: cs => PreservesObs g c ∧ PreservesObsList g cs

end

/-! ## Concrete oracles for closed computations

Arbitrary but fully concrete instances of the float-geometry and randomness
oracles, used only to instantiate universally-quantified theorems at closed
inputs. -/

def geoTriv : Geo :=
  { norm := fun _ => 0, normalize := fun v => v, atan2 := fun _ _ => 0,
    lerp := fun a _ _ => a }

def rndTriv : SoldierRand :=
  { searchQuality := 0, selectQuality := fun _ => 0, coverStay := 0,
    reposDelay := 0, repoIndex := 0, grenadeJx := 0, grenadeJz := 0,
    grenadeCd := 0 }

/-! ## Operation traces and invariants for the claims -/

/-- The public operations of the base combat entity quantified over in the
spec's lifecycle claims (construction is `mkAICharacter`). -/
inductive EOp where
  | damage (amount : ℚ)
  | tick (los : Bool) (now : ℚ) (tgt : Option Vec3) (dt : ℚ)
  | stunFor (d : ℚ)
  | dieNow

def applyEOp (geo : Geo) (e : Entity) : EOp → Entity
  | .damage amount => takeDamage geo amount e
  | .tick los now tgt dt => update geo los now tgt dt e
  | .stunFor d => stun d e
  | .dieNow => die e

def runOps (geo : Geo) (e : Entity) (ops : List EOp) : Entity :=
  ops.foldl (applyEOp geo) e

/-- The health-range invariant of claim C1, at operation boundaries and at
death-callback invocations (`deathObs` entries record the health the
on-death observers can read; `damageObs` entries the health the on-damage
observers can read, which stays bounded above by maxHealth but can dip below
zero — the corrected part of the claim). -/
def HealthInv (e : Entity) : Prop :=
  0 ≤ e.health ∧ e.health ≤ e.maxHealth ∧ 0 ≤ e.maxHealth
  ∧ (∀ h ∈ e.deathObs, h = 0 ∧ 0 ≤ h ∧ h ≤ e.maxHealth)
  ∧ (∀ p ∈ e.damageObs, p.2 ≤ e.maxHealth)

/-- A freshly spawned combatant: alive, positive health, no death event
fired yet. -/
def FreshCombatant (e : Entity) : Prop :=
  e.isAlive = true ∧ 0 < e.health ∧ e.deathObs = []

/-- Invariant tying the phase index of a 500/500 two-phase boss to the 50%
line of its (first-phase) maxHealth. -/
def TwoPhase500Inv (b : Boss) : Prop :=
  b.ent.maxHealth = 500 ∧ b.phaseHealthThresholds = [1/2, 0]
  ∧ b.phases.length = 2 ∧ 0 ≤ b.ent.health
  ∧ ((b.currentPhaseIndex = 0 ∧ 250 < b.ent.health)
     ∨ (b.currentPhaseIndex = 1 ∧ b.ent.health ≤ 250))

/-- The spec's damage scenario configuration: maxHealth 100, armor 20. -/
def scenarioConfig : AIConfig :=
  { charType := .grunt, health := 100, armor := 20, damage := 10,
    movement := DEFAULT_MOVEMENT }

/-- A plain armorless combatant configuration for closed computations. -/
def basicConfig : AIConfig :=
  { charType := .grunt, health := 100, armor := 0, damage := 5,
    movement := DEFAULT_MOVEMENT }

/-- An entity sitting in the Chase state (stun scenario start). -/
def chaseEntity : Entity := setState .chase (mkAICharacter basicConfig)

/-- A soldier already dead (health clamped, flag cleared, state DEAD), as
left behind by a lethal `takeDamage`. -/
def deadSoldier : Soldier :=
  let s := mkSoldier none none
  { s with ent := { s.ent with isAlive := false, health := 0, state := .dead } }

/-- A soldier at 45% health (54 of 120) with no recent suppression. -/
def soldierAt54 : Soldier :=
  let s := mkSoldier none none
  { s with ent := { s.ent with health := 54 } }

theorem onEnterState_vitals (s : AIState) (e : Entity) :
    vitals (onEnterState s e) = vitals e := by
  cases s <;> rfl

theorem onExitState_vitals (s : AIState) (e : Entity) :
    vitals (onExitState s e) = vitals e := by
  cases s <;> rfl

theorem setState_vitals (s : AIState) (e : Entity) :
    vitals (setState s e) = vitals e := by
  unfold setState
  split
  · rfl
  · calc vitals { onEnterState s (onExitState e.state
            { e with previousState := e.state, state := s }) with
            stateChangeObs := _ }
        = vitals (onEnterState s (onExitState e.state
            { e with previousState := e.state, state := s })) := rfl
      _ = vitals (onExitState e.state
            { e with previousState := e.state, state := s }) :=
            onEnterState_vitals _ _
      _ = vitals e := onExitState_vitals _ _

theorem stop_vitals (e : Entity) : vitals (stop e) = vitals e := rfl

theorem stun_vitals (d : ℚ) (e : Entity) : vitals (stun d e) = vitals e := by
  unfold stun
  calc vitals (stop (setState .stunned { e with isStunned := true, stunTime := d }))
      = vitals (setState .stunned { e with isStunned := true, stunTime := d }) :=
        stop_vitals _
    _ = vitals e := setState_vitals _ _

theorem moveToward_vitals (geo : Geo) (t : Vec3) (sp dt : ℚ) (e : Entity) :
    vitals (moveToward geo t sp dt e) = vitals e := by
  unfold moveToward
  dsimp only
  split <;> rfl

theorem onRetreat_vitals (e : Entity) : vitals (onRetreat e) = vitals e :=
  setState_vitals _ _

theorem onApproachTarget_vitals (geo : Geo) (t : Vec3) (e : Entity) :
    vitals (onApproachTarget geo t e) = vitals e := by
  unfold onApproachTarget
  dsimp only
  split
  · rw [moveToward_vitals, setState_vitals]
  · split
    · rw [moveToward_vitals]
    · exact setState_vitals _ _

theorem onAttack_vitals (now : ℚ) (e : Entity) :
    vitals (onAttack now e) = vitals e := by
  unfold onAttack
  dsimp only
  split
  · calc vitals { setState .attack e with
          attackObs := (setState .attack e).attackObs ++ [now], lastAttackTime := now }
        = vitals (setState .attack e) := rfl
      _ = vitals e := setState_vitals _ _
  · exact setState_vitals _ _

theorem patrolStepIndex_vitals (e : Entity) :
    vitals (patrolStepIndex e) = vitals e := by
  unfold patrolStepIndex
  dsimp only
  split
  · rfl
  · split <;> rfl

theorem onPatrol_vitals (geo : Geo) (e : Entity) :
    vitals (onPatrol geo e) = vitals e := by
  unfold onPatrol
  have hbase : vitals (setState .patrol e) = vitals e := setState_vitals _ _
  dsimp only
  split
  · rw [setState_vitals, setState_vitals]
  · split
    · calc vitals { setState .patrol e with
            patrolWaitTime := (setState .patrol e).patrolWaitTime - 1/60 }
          = vitals (setState .patrol e) := rfl
        _ = vitals e := hbase
    · split
      · calc vitals { patrolStepIndex (setState .patrol e) with patrolWaitTime := 2 }
            = vitals (patrolStepIndex (setState .patrol e)) := rfl
          _ = vitals (setState .patrol e) := patrolStepIndex_vitals _
          _ = vitals e := hbase
      · rw [moveToward_vitals]; exact hbase

theorem updatePerception_vitals (geo : Geo) (los : Bool) (now : ℚ)
    (tgt : Option Vec3) (e : Entity) :
    vitals (updatePerception geo los now tgt e) = vitals e := by
  unfold updatePerception
  dsimp only
  cases tgt
  · rfl
  · split_ifs <;> rfl

mutual

theorem exec_preservesObs {σ α : Type} (g : σ → α) :
    ∀ (t : BTNode σ) (s : σ), PreservesObs g t → g (BTNode.exec t s).1 = g s
  | .seq _ cs, s, h => execSeq_preservesObs g cs s h
  | .sel _ cs, s, h => execSel_preservesObs g cs s h
  | .cond _ _, _, _ => by unfold BTNode.exec; rfl
  | .act _ f, s, h => h s
  | .deco _ k c, s, h => by
      unfold BTNode.exec
      exact exec_preservesObs g c s h

theorem execSeq_preservesObs {σ α : Type} (g : σ → α) :
    ∀ (cs : List (BTNode σ)) (s : σ), PreservesObsList g cs →
      g (execSeqChildren cs s).1 = g s
  | [], _, _ => rfl
  | c :: cs, s, h => by
      unfold execSeqChildren
      have hc := exec_preservesObs g c s h.1
      rcases hx : BTNode.exec c s with ⟨s', st⟩
      rw [hx] at hc
      cases st
      · simpa using hc
      · have := execSeq_preservesObs g cs s' h.2
        simpa [this] using hc
      · simpa using hc

theorem execSel_preservesObs {σ α : Type} (g : σ → α) :
    ∀ (cs : List (BTNode σ)) (s : σ), PreservesObsList g cs →
      g (execSelChildren cs s).1 = g s
  | [], _, _ => rfl
  | c :: cs, s, h => by
      unfold execSelChildren
      have hc := exec_preservesObs g c s h.1
      rcases hx : BTNode.exec c s with ⟨s', st⟩
      rw [hx] at hc
      cases st
      · simpa using hc
      · simpa using hc
      · have := execSel_preservesObs g cs s' h.2
        simpa [this] using hc

end

/-- Every action in the stock enemy tree only steers/sets state, never the
vitals. -/
theorem enemyTree_preservesVitals (geo : Geo) (now : ℚ) :
    PreservesObs (fun s : BTCtx × Entity => vitals s.2) (enemyTreeRoot geo now) := by
  unfold enemyTreeRoot
  unfold PreservesObs PreservesObsList
  refine ⟨⟨trivial, ?_, trivial⟩, ⟨trivial, ?_, ?_, trivial⟩, ?_, trivial⟩
  · intro s; exact onRetreat_vitals s.2
  · intro s
    show vitals (match s.1.target with
      | some t => onApproachTarget geo t s.2
      | none => s.2) = vitals s.2
    cases s.1.target
    · rfl
    · exact onApproachTarget_vitals geo _ s.2
  · intro s
    show vitals (match s.1.target with
      | some _ => onAttack now s.2
      | none => s.2) = vitals s.2
    cases s.1.target
    · rfl
    · exact onAttack_vitals now s.2
  · intro s; exact onPatrol_vitals geo s.2

/-- A tick never touches health, maxHealth, armor, liveness or the callback
logs: `update` only steers, senses and times. -/
theorem tickStunned_vitals (dt : ℚ) (e : Entity) :
    vitals (tickStunned dt e) = vitals e := by
  unfold tickStunned
  dsimp only
  split
  · exact (setState_vitals _ _).trans rfl
  · rfl

theorem tickMain_vitals (geo : Geo) (los : Bool) (now : ℚ) (tgt : Option Vec3)
    (dt : ℚ) (e : Entity) : vitals (tickMain geo los now tgt dt e) = vitals e := by
  unfold tickMain
  have hper := updatePerception_vitals geo los now tgt e
  have hexec : vitals (((enemyTreeRoot geo now).exec
      (⟨(updatePerception geo los now tgt e).isAlive,
        (updatePerception geo los now tgt e).health,
        (updatePerception geo los now tgt e).maxHealth,
        (updatePerception geo los now tgt e).perceptionLos, tgt⟩,
        updatePerception geo los now tgt e)).1.2) =
      vitals (updatePerception geo los now tgt e) :=
    exec_preservesObs (fun s : BTCtx × Entity => vitals s.2) (enemyTreeRoot geo now)
      _ (enemyTree_preservesVitals geo now)
  dsimp only
  split
  · split
    · exact hper
    · exact hper
  · split
    · exact hexec.trans hper
    · exact hexec.trans hper

/-- A tick never touches health, maxHealth, armor, liveness or the callback
logs: `update` only steers, senses and times. -/
theorem update_vitals (geo : Geo) (los : Bool) (now : ℚ) (tgt : Option Vec3)
    (dt : ℚ) (e : Entity) : vitals (update geo los now tgt dt e) = vitals e := by
  unfold update
  split
  · rfl
  · split
    · exact tickStunned_vitals dt e
    · exact tickMain_vitals geo los now tgt dt e

/-! ## Field lemmas for the damage pipeline -/

theorem soldierCoverStep_vitals (geo : Geo) (e : Entity) :
    vitals (soldierCoverStep geo e) = vitals e := by
  unfold soldierCoverStep
  split
  · cases findNearestCover geo e
    · rfl
    · exact (setState_vitals _ _).trans rfl
  · rfl

theorem setState_health (s : AIState) (e : Entity) :
    (setState s e).health = e.health :=
  congrArg (fun t => t.1) (setState_vitals s e)

theorem setState_maxHealth (s : AIState) (e : Entity) :
    (setState s e).maxHealth = e.maxHealth :=
  congrArg (fun t => t.2.1) (setState_vitals s e)

theorem setState_armor (s : AIState) (e : Entity) :
    (setState s e).armor = e.armor :=
  congrArg (fun t => t.2.2.1) (setState_vitals s e)

theorem setState_isAlive (s : AIState) (e : Entity) :
    (setState s e).isAlive = e.isAlive :=
  congrArg (fun t => t.2.2.2.1) (setState_vitals s e)

theorem setState_damageObs (s : AIState) (e : Entity) :
    (setState s e).damageObs = e.damageObs :=
  congrArg (fun t => t.2.2.2.2.1) (setState_vitals s e)

theorem setState_deathObs (s : AIState) (e : Entity) :
    (setState s e).deathObs = e.deathObs :=
  congrArg (fun t => t.2.2.2.2.2) (setState_vitals s e)

theorem onEnterState_state (s : AIState) (e : Entity) :
    (onEnterState s e).state = e.state := by cases s <;> rfl

theorem onExitState_state (s : AIState) (e : Entity) :
    (onExitState s e).state = e.state := by cases s <;> rfl

theorem onEnterState_previousState (s : AIState) (e : Entity) :
    (onEnterState s e).previousState = e.previousState := by cases s <;> rfl

theorem onExitState_previousState (s : AIState) (e : Entity) :
    (onExitState s e).previousState = e.previousState := by cases s <;> rfl

theorem onEnterState_isStunned (s : AIState) (e : Entity) :
    (onEnterState s e).isStunned = e.isStunned := by cases s <;> rfl

theorem onExitState_isStunned (s : AIState) (e : Entity) :
    (onExitState s e).isStunned = e.isStunned := by cases s <;> rfl

theorem onEnterState_stunTime (s : AIState) (e : Entity) :
    (onEnterState s e).stunTime = e.stunTime := by cases s <;> rfl

theorem onExitState_stunTime (s : AIState) (e : Entity) :
    (onExitState s e).stunTime = e.stunTime := by cases s <;> rfl

/-- `setState` always leaves the machine in the requested state. -/
theorem setState_state (s : AIState) (e : Entity) :
    (setState s e).state = s := by
  unfold setState
  split
  · rename_i h
    exact h
  · show (onEnterState s (onExitState e.state
        { e with previousState := e.state, state := s })).state = s
    rw [onEnterState_state, onExitState_state]

/-- On an actual transition, `previousState` records the old state. -/
theorem setState_previousState_of_ne (s : AIState) (e : Entity)
    (h : e.state ≠ s) : (setState s e).previousState = e.state := by
  unfold setState
  rw [if_neg h]
  show (onEnterState s (onExitState e.state
      { e with previousState := e.state, state := s })).previousState = e.state
  rw [onEnterState_previousState, onExitState_previousState]

theorem setState_isStunned (s : AIState) (e : Entity) :
    (setState s e).isStunned = e.isStunned := by
  unfold setState
  split
  · rfl
  · show (onEnterState s (onExitState e.state
        { e with previousState := e.state, state := s })).isStunned = e.isStunned
    rw [onEnterState_isStunned, onExitState_isStunned]

theorem setState_stunTime (s : AIState) (e : Entity) :
    (setState s e).stunTime = e.stunTime := by
  unfold setState
  split
  · rfl
  · show (onEnterState s (onExitState e.state
        { e with previousState := e.state, state := s })).stunTime = e.stunTime
    rw [onEnterState_stunTime, onExitState_stunTime]

/-- The observable facts of `die()`: health clamped to 0, alive flag cleared,
state DEAD, velocity zeroed, the death callbacks fired exactly once more with
health 0 visible to them; armor, maxHealth and the damage log untouched. -/
theorem die_fields (e : Entity) :
    (die e).health = 0 ∧ (die e).isAlive = false ∧ (die e).state = .dead
    ∧ (die e).velocity = Vec3.zero
    ∧ (die e).deathObs = e.deathObs ++ [0]
    ∧ (die e).armor = e.armor ∧ (die e).maxHealth = e.maxHealth
    ∧ (die e).damageObs = e.damageObs := by
  unfold die stop
  have h1 := setState_vitals .dead { e with isAlive := false, health := 0 }
  refine ⟨?_, ?_, ?_, rfl, ?_, ?_, ?_, ?_⟩
  · exact congrArg (fun t => t.1) h1
  · exact congrArg (fun t => t.2.2.2.1) h1
  · exact setState_state _ _
  · have hh : (setState .dead { e with isAlive := false, health := 0 }).health = 0 :=
      congrArg (fun t => t.1) h1
    show (setState .dead { e with isAlive := false, health := 0 }).deathObs
        ++ [(setState .dead { e with isAlive := false, health := 0 }).health]
      = e.deathObs ++ [0]
    rw [hh, setState_deathObs]
  · exact congrArg (fun t => t.2.2.1) h1
  · exact congrArg (fun t => t.2.1) h1
  · exact congrArg (fun t => t.2.2.2.2.1) h1

/-! ## Claim C9 — decorator semantics -/

/-- C9: a force-Success (resp. force-Failure) decorator executes its child
exactly once — the decorated node's state effect is exactly the child's state
effect — and then reports SUCCESS (resp. FAILURE) regardless of the child's
result; the Inverter maps the child's SUCCESS to FAILURE, FAILURE to SUCCESS,
and passes RUNNING through unchanged.  The final conjunct witnesses the
"still executed" part on a call-counting child: a counter child that fails is
still incremented exactly once while SUCCESS is reported. -/
theorem c9_decorator_forces_status_but_executes_child :
    (∀ (σ : Type) (nm : String) (child : BTNode σ) (s : σ),
        BTNode.exec (.deco nm .successRate child) s = ((BTNode.exec child s).1, .success)
      ∧ BTNode.exec (.deco nm .failureRate child) s = ((BTNode.exec child s).1, .failure)
      ∧ (BTNode.exec (.deco nm .inverter child) s).1 = (BTNode.exec child s).1
      ∧ ((BTNode.exec child s).2 = .success →
          (BTNode.exec (.deco nm .inverter child) s).2 = .failure)
      ∧ ((BTNode.exec child s).2 = .failure →
          (BTNode.exec (.deco nm .inverter child) s).2 = .success)
      ∧ ((BTNode.exec child s).2 = .running →
          (BTNode.exec (.deco nm .inverter child) s).2 = .running))
    ∧ (∀ callCount : ℕ,
        BTNode.exec (.deco "forced" .successRate
          (.act "countingChild" (fun n => (n + 1, NodeStatus.failure)))) callCount
        = (callCount + 1, .success)) := by
  constructor
  · intro σ nm child s
    refine ⟨rfl, rfl, rfl, ?_, ?_, ?_⟩ <;>
      · intro h
        show applyDecorator .inverter (BTNode.exec child s).2 = _
        rw [h]
        rfl
  · intro callCount
    rfl

/-! ## Claim C7 — phase thresholds are decreasing, not non-decreasing -/

/-- C7 counterexample: for the Trainer's two positive phase budgets
500/500, the computed thresholds are `[1/2, 0]`, which is NOT monotonically
non-decreasing (the claim's ordering fails on the very first step). -/
theorem c7_thresholds_not_nondecreasing_cex :
    (TRAINER_PHASES.map (·.health)) = [500, 500]
    ∧ (0:ℚ) < 500
    ∧ calculatePhaseThresholds TRAINER_PHASES = [1/2, 0]
    ∧ ¬ List.Chain' (· ≤ ·) (calculatePhaseThresholds TRAINER_PHASES) := by
  refine ⟨rfl, by norm_num, ?_, ?_⟩
  · show calcThresholdsGo ((TRAINER_PHASES.map (·.health)).sum) TRAINER_PHASES 0 = [1/2, 0]
    norm_num [TRAINER_PHASES, calcThresholdsGo]
  · intro hmono
    have h12 : calculatePhaseThresholds TRAINER_PHASES = [1/2, 0] := by
      show calcThresholdsGo ((TRAINER_PHASES.map (·.health)).sum) TRAINER_PHASES 0 = [1/2, 0]
      norm_num [TRAINER_PHASES, calcThresholdsGo]
    rw [h12] at hmono
    have := (List.chain'_cons.mp hmono).1
    norm_num at this

/-- C7 amended, step lemma: with positive per-phase budgets and positive
total, the cumulative thresholds strictly decrease along the list. -/
theorem calcThresholdsGo_strict_anti (total : ℚ) (htotal : 0 < total) :
    ∀ (l : List BossPhaseConfig) (acc : ℚ), (∀ p ∈ l, 0 < p.health) →
      List.Chain' (fun a b => b < a) (calcThresholdsGo total l acc)
  | [], _, _ => by simp [calcThresholdsGo]
  | [p], acc, _ => by simp [calcThresholdsGo]
  | p :: q :: rest, acc, h => by
      have hq : 0 < q.health := h q (by simp)
      have htail := calcThresholdsGo_strict_anti total htotal (q :: rest)
        (acc + p.health) (fun x hx => h x (by simp [hx]))
      rw [calcThresholdsGo]
      rw [List.chain'_cons']
      refine ⟨?_, htail⟩
      intro y hy
      rw [calcThresholdsGo] at hy
      simp only [List.head?_cons, Option.mem_def, Option.some.injEq] at hy
      subst hy
      have hlt : (acc + p.health) / total < (acc + p.health + q.health) / total :=
        (div_lt_div_iff_of_pos_right htotal).mpr (by linarith)
      linarith

/-- C7 amended: for every phase list with positive per-phase health budgets,
the thresholds `1 − cumulative/total` computed at construction form a
monotonically (strictly) DECREASING sequence over the phase indices — the
spec's "non-decreasing" has the direction reversed. -/
theorem c7_thresholds_strictly_decreasing (phases : List BossPhaseConfig)
    (hpos : ∀ p ∈ phases, 0 < p.health) :
    List.Chain' (fun a b => b < a) (calculatePhaseThresholds phases) := by
  unfold calculatePhaseThresholds
  cases phases with
  | nil => simp [calcThresholdsGo]
  | cons p rest =>
      have hp : 0 < p.health := hpos p (by simp)
      have hrest : 0 ≤ ((rest.map (·.health)).sum) := by
        apply List.sum_nonneg
        intro x hx
        rcases List.mem_map.mp hx with ⟨q, hq, rfl⟩
        exact (hpos q (by simp [hq])).le
      have htotal : 0 < (((p :: rest).map (·.health)).sum) := by
        simp only [List.map_cons, List.sum_cons]
        linarith
      exact calcThresholdsGo_strict_anti _ htotal (p :: rest) 0 hpos

/-- C7 witness: the amended theorem applied to the Trainer's concrete
positive phase budgets. -/
theorem c7_thresholds_witness :
    (∀ p ∈ TRAINER_PHASES, 0 < p.health)
    ∧ List.Chain' (fun a b => b < a) (calculatePhaseThresholds TRAINER_PHASES) := by
  have hpos : ∀ p ∈ TRAINER_PHASES, 0 < p.health := by
    intro p hp
    simp only [TRAINER_PHASES, List.mem_cons, List.not_mem_nil, or_false] at hp
    rcases hp with rfl | rfl <;> norm_num
  exact ⟨hpos, c7_thresholds_strictly_decreasing TRAINER_PHASES hpos⟩

/-! ## The damage pipeline, dissected -/

theorem takeDamage_dead (geo : Geo) (amount : ℚ) (e : Entity)
    (h : e.isAlive = false) : takeDamage geo amount e = e := by
  unfold takeDamage
  rw [if_pos h]

theorem armorAbsorb_fst_armor (amount : ℚ) (e : Entity) (hamt : 0 ≤ amount)
    (harm : 0 ≤ e.armor) :
    (armorAbsorb amount e).1.armor = e.armor - min e.armor (amount * (1/2)) := by
  unfold armorAbsorb
  split
  · rfl
  · rename_i h
    have h0 : e.armor = 0 := le_antisymm (not_lt.mp h) harm
    have hmin : min e.armor (amount * (1/2)) = 0 := by
      rw [h0]
      exact min_eq_left (by positivity)
    show e.armor = e.armor - min e.armor (amount * (1/2))
    rw [hmin]
    ring

theorem armorAbsorb_snd (amount : ℚ) (e : Entity) (hamt : 0 ≤ amount)
    (harm : 0 ≤ e.armor) :
    (armorAbsorb amount e).2 = amount - min e.armor (amount * (1/2)) := by
  unfold armorAbsorb
  split
  · rfl
  · rename_i h
    have h0 : e.armor = 0 := le_antisymm (not_lt.mp h) harm
    have hmin : min e.armor (amount * (1/2)) = 0 := by
      rw [h0]
      exact min_eq_left (by positivity)
    show amount = amount - min e.armor (amount * (1/2))
    rw [hmin]
    ring

theorem armorAbsorb_snd_nonneg (amount : ℚ) (e : Entity) (hamt : 0 ≤ amount) :
    0 ≤ (armorAbsorb amount e).2 := by
  unfold armorAbsorb
  split
  · dsimp only
    have h := min_le_right e.armor (amount * (1/2))
    linarith
  · exact hamt

theorem armorAbsorb_fst_armor_nonneg (amount : ℚ) (e : Entity)
    (harm : 0 ≤ e.armor) : 0 ≤ (armorAbsorb amount e).1.armor := by
  unfold armorAbsorb
  split
  · dsimp only
    have h := min_le_left e.armor (amount * (1/2))
    linarith
  · exact harm

theorem armorAbsorb_fst_rest (amount : ℚ) (e : Entity) :
    (armorAbsorb amount e).1.health = e.health
    ∧ (armorAbsorb amount e).1.maxHealth = e.maxHealth
    ∧ (armorAbsorb amount e).1.isAlive = e.isAlive
    ∧ (armorAbsorb amount e).1.damageObs = e.damageObs
    ∧ (armorAbsorb amount e).1.deathObs = e.deathObs
    ∧ (armorAbsorb amount e).1.charType = e.charType := by
  unfold armorAbsorb
  split <;> exact ⟨rfl, rfl, rfl, rfl, rfl, rfl⟩

theorem soldierCoverStep_health (geo : Geo) (e : Entity) :
    (soldierCoverStep geo e).health = e.health :=
  congrArg (fun t => t.1) (soldierCoverStep_vitals geo e)

theorem soldierCoverStep_maxHealth (geo : Geo) (e : Entity) :
    (soldierCoverStep geo e).maxHealth = e.maxHealth :=
  congrArg (fun t => t.2.1) (soldierCoverStep_vitals geo e)

theorem soldierCoverStep_armor (geo : Geo) (e : Entity) :
    (soldierCoverStep geo e).armor = e.armor :=
  congrArg (fun t => t.2.2.1) (soldierCoverStep_vitals geo e)

theorem soldierCoverStep_isAlive (geo : Geo) (e : Entity) :
    (soldierCoverStep geo e).isAlive = e.isAlive :=
  congrArg (fun t => t.2.2.2.1) (soldierCoverStep_vitals geo e)

theorem soldierCoverStep_damageObs (geo : Geo) (e : Entity) :
    (soldierCoverStep geo e).damageObs = e.damageObs :=
  congrArg (fun t => t.2.2.2.2.1) (soldierCoverStep_vitals geo e)

theorem soldierCoverStep_deathObs (geo : Geo) (e : Entity) :
    (soldierCoverStep geo e).deathObs = e.deathObs :=
  congrArg (fun t => t.2.2.2.2.2) (soldierCoverStep_vitals geo e)

/-- Full accounting of one live `takeDamage` call: maxHealth and armor flow
through the armor stage only; health either stays positive (no death) or is
clamped to 0 with `die()` run once; the damage observers see exactly the
post-armor interim health. -/
theorem takeDamage_alive_fields (geo : Geo) (amount : ℚ) (e : Entity)
    (halive : e.isAlive = true) :
    (takeDamage geo amount e).maxHealth = e.maxHealth
    ∧ (takeDamage geo amount e).armor = (armorAbsorb amount e).1.armor
    ∧ (takeDamage geo amount e).damageObs
        = e.damageObs ++ [(amount, e.health - (armorAbsorb amount e).2)]
    ∧ ((0 < e.health - (armorAbsorb amount e).2
          ∧ (takeDamage geo amount e).health = e.health - (armorAbsorb amount e).2
          ∧ (takeDamage geo amount e).isAlive = true
          ∧ (takeDamage geo amount e).deathObs = e.deathObs)
        ∨ (e.health - (armorAbsorb amount e).2 ≤ 0
          ∧ (takeDamage geo amount e).health = 0
          ∧ (takeDamage geo amount e).isAlive = false
          ∧ (takeDamage geo amount e).deathObs = e.deathObs ++ [0])) := by
  obtain ⟨hh, hm, ha, hdo, hde, _⟩ := armorAbsorb_fst_rest amount e
  unfold takeDamage
  rw [if_neg (by simp [halive])]
  dsimp only
  rw [hh]
  by_cases hd : e.health - (armorAbsorb amount e).2 ≤ 0
  · rw [if_pos hd]
    obtain ⟨dh, dal, _, _, dde, dar, dmx, ddo⟩ :=
      die_fields { (armorAbsorb amount e).1 with
        health := e.health - (armorAbsorb amount e).2,
        damageObs := (armorAbsorb amount e).1.damageObs
          ++ [(amount, e.health - (armorAbsorb amount e).2)] }
    refine ⟨?_, ?_, ?_, Or.inr ⟨hd, ?_, ?_, ?_⟩⟩
    · rw [soldierCoverStep_maxHealth, dmx]
      exact hm
    · rw [soldierCoverStep_armor, dar]
    · rw [soldierCoverStep_damageObs, ddo]
      show (armorAbsorb amount e).1.damageObs ++ _ = _
      rw [hdo]
    · rw [soldierCoverStep_health, dh]
    · rw [soldierCoverStep_isAlive, dal]
    · rw [soldierCoverStep_deathObs, dde]
      show (armorAbsorb amount e).1.deathObs ++ [0] = _
      rw [hde]
  · rw [if_neg hd]
    refine ⟨?_, ?_, ?_, Or.inl ⟨lt_of_not_le (fun hc => hd (by linarith)), ?_, ?_, ?_⟩⟩
    · rw [soldierCoverStep_maxHealth]
      exact hm
    · rw [soldierCoverStep_armor]
    · rw [soldierCoverStep_damageObs]
      show (armorAbsorb amount e).1.damageObs ++ _ = _
      rw [hdo]
    · rw [soldierCoverStep_health]
    · rw [soldierCoverStep_isAlive]
      show (armorAbsorb amount e).1.isAlive = true
      rw [ha]
      exact halive
    · rw [soldierCoverStep_deathObs]
      exact hde

/-! ## Claim C4 — armor absorption pipeline -/

/-- C4: a live `takeDamage(amount)` with nonnegative amount and armor lets
armor absorb `min(armor, amount·0.5)` — armor never goes negative — and health
drops by the remainder, floored at 0. -/
theorem c4_takeDamage_armor_absorbs_then_health (geo : Geo) (amount : ℚ)
    (e : Entity) (halive : e.isAlive = true) (hamt : 0 ≤ amount)
    (harm : 0 ≤ e.armor) :
    (takeDamage geo amount e).armor = e.armor - min e.armor (amount * (1/2))
    ∧ 0 ≤ (takeDamage geo amount e).armor
    ∧ (takeDamage geo amount e).health
        = max 0 (e.health - (amount - min e.armor (amount * (1/2)))) := by
  obtain ⟨_, har, _, hcases⟩ := takeDamage_alive_fields geo amount e halive
  have hsnd := armorAbsorb_snd amount e hamt harm
  refine ⟨?_, ?_, ?_⟩
  · rw [har, armorAbsorb_fst_armor amount e hamt harm]
  · rw [har]
    exact armorAbsorb_fst_armor_nonneg amount e harm
  · rcases hcases with ⟨hpos, hh, _, _⟩ | ⟨hneg, hh, _, _⟩
    · rw [hh, hsnd] at *
      rw [max_eq_right]
      linarith [hpos]
    · rw [hh]
      rw [hsnd] at hneg
      rw [max_eq_left]
      linarith [hneg]

/-- C4 witness: the spec's concrete scenario — maxHealth 100, health 100,
armor 20, `takeDamage(30)` ends with armor 5 and health 85. -/
theorem c4_takeDamage_witness :
    (mkAICharacter scenarioConfig).isAlive = true
    ∧ (0:ℚ) ≤ 30 ∧ 0 ≤ (mkAICharacter scenarioConfig).armor
    ∧ (takeDamage geoTriv 30 (mkAICharacter scenarioConfig)).armor = 5
    ∧ (takeDamage geoTriv 30 (mkAICharacter scenarioConfig)).health = 85 := by
  have h := c4_takeDamage_armor_absorbs_then_health geoTriv 30
    (mkAICharacter scenarioConfig) rfl (by norm_num)
    (by show (0:ℚ) ≤ 20; norm_num)
  refine ⟨rfl, by norm_num, by show (0:ℚ) ≤ 20; norm_num, ?_, ?_⟩
  · rw [h.1]
    show (20:ℚ) - min 20 (30 * (1/2)) = 5
    norm_num
  · rw [h.2.2]
    show max 0 ((100:ℚ) - (30 - min 20 (30 * (1/2)))) = 85
    norm_num

/-! ## Per-operation invariant lemmas -/

theorem HealthInv_of_vitals_eq {e e' : Entity} (h : vitals e' = vitals e) :
    HealthInv e → HealthInv e' := by
  intro hi
  have h1 : e'.health = e.health := congrArg (fun t => t.1) h
  have h2 : e'.maxHealth = e.maxHealth := congrArg (fun t => t.2.1) h
  have h5 : e'.damageObs = e.damageObs := congrArg (fun t => t.2.2.2.2.1) h
  have h6 : e'.deathObs = e.deathObs := congrArg (fun t => t.2.2.2.2.2) h
  obtain ⟨i1, i2, i3, i4, i5⟩ := hi
  exact ⟨h1 ▸ i1, h2 ▸ h1 ▸ i2, h2 ▸ i3,
    by rw [h6, h2]; exact i4, by rw [h5, h2]; exact i5⟩

theorem takeDamage_HealthInv (geo : Geo) (a : ℚ) (e : Entity) (ha : 0 ≤ a) :
    HealthInv e → HealthInv (takeDamage geo a e) := by
  intro hi
  obtain ⟨i1, i2, i3, i4, i5⟩ := hi
  by_cases halive : e.isAlive = true
  · obtain ⟨hm, _, hdobs, hcases⟩ := takeDamage_alive_fields geo a e halive
    have hdmg : 0 ≤ (armorAbsorb a e).2 := armorAbsorb_snd_nonneg a e ha
    have hobs : ∀ p ∈ (takeDamage geo a e).damageObs,
        p.2 ≤ (takeDamage geo a e).maxHealth := by
      intro p hp
      rw [hdobs] at hp
      rw [hm]
      rcases List.mem_append.mp hp with hp | hp
      · exact i5 p hp
      · rcases List.mem_singleton.mp hp with rfl
        show e.health - (armorAbsorb a e).2 ≤ e.maxHealth
        linarith
    rcases hcases with ⟨hpos, hh, _, hde⟩ | ⟨hneg, hh, _, hde⟩
    · refine ⟨by rw [hh]; linarith, by rw [hh, hm]; linarith, by rw [hm]; exact i3,
        ?_, hobs⟩
      intro x hx
      rw [hde] at hx
      rw [hm]
      exact i4 x hx
    · refine ⟨by rw [hh], by rw [hh, hm]; exact i3, by rw [hm]; exact i3, ?_, hobs⟩
      intro x hx
      rw [hde] at hx
      rw [hm]
      rcases List.mem_append.mp hx with hx | hx
      · exact i4 x hx
      · rcases List.mem_singleton.mp hx with rfl
        exact ⟨rfl, le_refl 0, i3⟩
  · rw [takeDamage_dead geo a e (by revert halive; cases e.isAlive <;> simp)]
    exact ⟨i1, i2, i3, i4, i5⟩

theorem die_HealthInv (e : Entity) : HealthInv e → HealthInv (die e) := by
  intro ⟨_, _, i3, i4, i5⟩
  obtain ⟨dh, _, _, _, dde, _, dmx, ddo⟩ := die_fields e
  refine ⟨by rw [dh], by rw [dh, dmx]; exact i3, by rw [dmx]; exact i3, ?_, ?_⟩
  · intro x hx
    rw [dde] at hx
    rw [dmx]
    rcases List.mem_append.mp hx with hx | hx
    · exact i4 x hx
    · rcases List.mem_singleton.mp hx with rfl
      exact ⟨rfl, le_refl 0, i3⟩
  · intro p hp
    rw [ddo] at hp
    rw [dmx]
    exact i5 p hp

theorem applyEOp_HealthInv (geo : Geo) (e : Entity) (op : EOp)
    (hop : ∀ a, op = EOp.damage a → 0 ≤ a) :
    HealthInv e → HealthInv (applyEOp geo e op) := by
  intro hi
  cases op with
  | damage a => exact takeDamage_HealthInv geo a e (hop a rfl) hi
  | tick los now tgt dt =>
      exact HealthInv_of_vitals_eq (update_vitals geo los now tgt dt e) hi
  | stunFor d => exact HealthInv_of_vitals_eq (stun_vitals d e) hi
  | dieNow => exact die_HealthInv e hi

theorem runOps_HealthInv (geo : Geo) (ops : List EOp) :
    ∀ (e : Entity), HealthInv e → (∀ a, EOp.damage a ∈ ops → 0 ≤ a) →
      HealthInv (runOps geo e ops) := by
  induction ops with
  | nil => intro e hi _; exact hi
  | cons op rest ih =>
      intro e hi hops
      show HealthInv (runOps geo (applyEOp geo e op) rest)
      refine ih (applyEOp geo e op) ?_ ?_
      · exact applyEOp_HealthInv geo e op
          (fun a haeq => hops a (haeq ▸ List.mem_cons_self op rest)) hi
      · intro a ha
        exact hops a (List.mem_cons_of_mem op ha)

/-! ## Claim C1 — health range under public operations -/

/-- C1 counterexample: the claimed range `[0, maxHealth]` fails at two
observation points of the claim.  (1) With health 100 and no armor, a single
`takeDamage(130)` invokes the on-damage callbacks at the moment health is
−30, outside the range (`die()` only clamps afterwards).  (2) A
`takeDamage(-10)` — the claim quantifies over "any takeDamage" — leaves
health at 110, above maxHealth 100, even after the call returns. -/
theorem c1_health_range_cex :
    ((takeDamage geoTriv 130 (mkAICharacter basicConfig)).damageObs
        = [(130, -30)] ∧ ¬ ((0:ℚ) ≤ -30))
    ∧ ((takeDamage geoTriv (-10) (mkAICharacter basicConfig)).health = 110
        ∧ (takeDamage geoTriv (-10) (mkAICharacter basicConfig)).maxHealth = 100
        ∧ ¬ ((110:ℚ) ≤ 100)) := by
  refine ⟨⟨?_, by norm_num⟩, ?_, ?_, by norm_num⟩ <;>
    simp [takeDamage, armorAbsorb, soldierCoverStep, die, stop, setState,
      onEnterState, onExitState, mkAICharacter, basicConfig, DEFAULT_MOVEMENT] <;>
    norm_num

/-- C1 amended: starting from construction with positive health, along every
sequence of public operations whose damage amounts are nonnegative, health
stays within `[0, maxHealth]` at every operation boundary and at every
death-callback invocation; the on-damage callbacks can transiently observe
health below 0 on an overkill hit (clamped to 0 before the call returns, and
never above maxHealth), and negative damage amounts are excluded because
they heal past maxHealth. -/
theorem c1_health_range_amended (geo : Geo) (config : AIConfig)
    (ops : List EOp) (hhp : 0 < config.health)
    (hamts : ∀ a, EOp.damage a ∈ ops → 0 ≤ a) :
    HealthInv (runOps geo (mkAICharacter config) ops) := by
  refine runOps_HealthInv geo ops (mkAICharacter config) ?_ hamts
  refine ⟨hhp.le, le_refl _, hhp.le, ?_, ?_⟩
  · intro x hx
    cases hx
  · intro p hp
    cases hp

/-- C1 witness: the amended invariant on a concrete four-operation trace of
the basic combatant. -/
theorem c1_health_range_witness :
    (0:ℚ) < 100
    ∧ HealthInv (runOps geoTriv (mkAICharacter basicConfig)
        [EOp.damage 30, EOp.tick false 0 none (1/60), EOp.stunFor 1,
         EOp.damage 80, EOp.dieNow]) := by
  refine ⟨by norm_num, ?_⟩
  have h := c1_health_range_amended geoTriv basicConfig
      [EOp.damage 30, EOp.tick false 0 none (1/60), EOp.stunFor 1,
       EOp.damage 80, EOp.dieNow]
      (by show (0:ℚ) < 100; norm_num)
      (by
        intro a ha
        simp only [List.mem_cons, List.not_mem_nil, or_false] at ha
        rcases ha with ha | ha | ha | ha | ha <;> first
          | (cases ha; norm_num)
          | cases ha)
  exact h

/-! ## Claim C3 — death callbacks fire exactly once -/

/-- C3 counterexample: the claim's "every later takeDamage call is a no-op"
fails for the Soldier subclass: on an already-dead soldier,
`Soldier.takeDamage` still adds 1.0 s of suppression and flips the state from
DEAD to COVER (its base call is the only guarded part). -/
theorem c3_dead_soldier_not_noop_cex :
    deadSoldier.ent.isAlive = false
    ∧ deadSoldier.suppressTimer = 0
    ∧ deadSoldier.ent.state = .dead
    ∧ (soldierTakeDamage geoTriv rndTriv none 10 deadSoldier).suppressTimer = 1
    ∧ (soldierTakeDamage geoTriv rndTriv none 10 deadSoldier).ent.state = .cover := by
  refine ⟨rfl, rfl, rfl, ?_, ?_⟩ <;>
    · simp [soldierTakeDamage, takeDamage, findAndMoveToCover, searchForCover,
        moveToCover, setState, onEnterState, onExitState, deadSoldier, mkSoldier,
        mkAICharacter, SOLDIER_CONFIG, geoTriv, rndTriv, Vec3.add, Vec3.zero]
      split <;> rfl

theorem moveToCover_ent_core (geo : Geo) (rnd : SoldierRand) (c : Vec3)
    (s : Soldier) :
    (moveToCover geo rnd c s).ent.state = s.ent.state
    ∧ (moveToCover geo rnd c s).ent.isAlive = s.ent.isAlive
    ∧ (moveToCover geo rnd c s).ent.deathObs = s.ent.deathObs := by
  unfold moveToCover
  dsimp only
  refine ⟨?_, ?_, ?_⟩ <;> (split <;> rfl)

theorem findAndMoveToCover_ent_core (geo : Geo) (rnd : SoldierRand)
    (tgt : Option Vec3) (s : Soldier) :
    (findAndMoveToCover geo rnd tgt s).ent.state = .cover
    ∧ (findAndMoveToCover geo rnd tgt s).ent.isAlive = s.ent.isAlive
    ∧ (findAndMoveToCover geo rnd tgt s).ent.deathObs = s.ent.deathObs := by
  unfold findAndMoveToCover
  dsimp only
  split
  · rename_i c _
    obtain ⟨h1, h2, h3⟩ := moveToCover_ent_core geo rnd c.position
      { s with ent := setState .cover s.ent, coverState := _ }
    refine ⟨?_, ?_, ?_⟩
    · rw [h1]; exact setState_state _ _
    · rw [h2]; exact setState_isAlive _ _
    · rw [h3]; exact setState_deathObs _ _
  · exact ⟨setState_state _ _, setState_isAlive _ _, setState_deathObs _ _⟩

/-- C3 amended: along every sequence of base-class `takeDamage` calls from a
fresh combatant, the death callbacks fire exactly once — once iff the trace
ends dead, never while it remains alive — and every `takeDamage` on an
already-dead base entity is a complete no-op; the Soldier override is the one
exception to "no-op": it still bumps its suppression timer (and can move a
corpse to COVER), but even it can never re-fire `die()` or the death
callbacks. -/
theorem c3_death_callbacks_exactly_once_amended (geo : Geo) (e : Entity)
    (amounts : List ℚ) (h : FreshCombatant e) :
    ((amounts.foldl (fun acc a => takeDamage geo a acc) e).deathObs.length
      = if (amounts.foldl (fun acc a => takeDamage geo a acc) e).isAlive = true
        then 0 else 1)
    ∧ (∀ (a : ℚ) (e' : Entity), e'.isAlive = false → takeDamage geo a e' = e')
    ∧ (∀ (rnd : SoldierRand) (tgt : Option Vec3) (a : ℚ) (sd : Soldier),
        sd.ent.isAlive = false →
          (soldierTakeDamage geo rnd tgt a sd).ent.deathObs = sd.ent.deathObs
          ∧ (soldierTakeDamage geo rnd tgt a sd).ent.isAlive = false) := by
  refine ⟨?_, fun a e' h' => takeDamage_dead geo a e' h', ?_⟩
  · have main : ∀ (l : List ℚ) (x : Entity),
        (x.isAlive = true ∧ 0 < x.health ∧ x.deathObs = [])
          ∨ (x.isAlive = false ∧ x.deathObs.length = 1) →
        ((l.foldl (fun acc a => takeDamage geo a acc) x).isAlive = true
            ∧ 0 < (l.foldl (fun acc a => takeDamage geo a acc) x).health
            ∧ (l.foldl (fun acc a => takeDamage geo a acc) x).deathObs = [])
          ∨ ((l.foldl (fun acc a => takeDamage geo a acc) x).isAlive = false
            ∧ (l.foldl (fun acc a => takeDamage geo a acc) x).deathObs.length = 1) := by
      intro l
      induction l with
      | nil => intro x hx; exact hx
      | cons a rest ih =>
          intro x hx
          show ((rest.foldl _ (takeDamage geo a x)).isAlive = true ∧ _ ∧ _) ∨ _
          refine ih (takeDamage geo a x) ?_
          rcases hx with ⟨hal, hpos, hobs⟩ | ⟨hdead, hlen⟩
          · obtain ⟨_, _, _, hcases⟩ := takeDamage_alive_fields geo a x hal
            rcases hcases with ⟨hp, hh, hal', hde⟩ | ⟨hn, hh, hal', hde⟩
            · exact Or.inl ⟨hal', by rw [hh]; exact hp, by rw [hde]; exact hobs⟩
            · exact Or.inr ⟨hal', by rw [hde, hobs]; rfl⟩
          · rw [takeDamage_dead geo a x hdead]
            exact Or.inr ⟨hdead, hlen⟩
    obtain ⟨hal, hpos, hobs⟩ := h
    rcases main amounts e (Or.inl ⟨hal, hpos, hobs⟩) with ⟨h1, _, h3⟩ | ⟨h1, h2⟩
    · rw [h3, if_pos h1]
      rfl
    · rw [h2, if_neg (by rw [h1]; simp)]
  · intro rnd tgt a sd hdead
    unfold soldierTakeDamage
    rw [takeDamage_dead geo a sd.ent hdead]
    dsimp only
    split
    · obtain ⟨_, h2, h3⟩ := findAndMoveToCover_ent_core geo rnd tgt
        { sd with suppressTimer := sd.suppressTimer + 1 }
      exact ⟨h3, by rw [h2]; exact hdead⟩
    · exact ⟨rfl, hdead⟩

/-- C3 witness: the amended statement on a concrete overkill-then-repeat
trace of the basic combatant. -/
theorem c3_death_callbacks_witness :
    FreshCombatant (mkAICharacter basicConfig)
    ∧ (([(130:ℚ), 0, -5, 20].foldl (fun acc a => takeDamage geoTriv a acc)
          (mkAICharacter basicConfig)).deathObs.length
        = if ([(130:ℚ), 0, -5, 20].foldl (fun acc a => takeDamage geoTriv a acc)
              (mkAICharacter basicConfig)).isAlive = true then 0 else 1) := by
  have hfresh : FreshCombatant (mkAICharacter basicConfig) :=
    ⟨rfl, by show (0:ℚ) < 100; norm_num, rfl⟩
  exact ⟨hfresh,
    (c3_death_callbacks_exactly_once_amended geoTriv (mkAICharacter basicConfig)
      [130, 0, -5, 20] hfresh).1⟩

/-! ## Stun lemmas -/

theorem stun_fields (d : ℚ) (e : Entity) (hne : e.state ≠ .stunned) :
    (stun d e).state = .stunned ∧ (stun d e).isStunned = true
    ∧ (stun d e).stunTime = d ∧ (stun d e).velocity = Vec3.zero
    ∧ (stun d e).previousState = e.state ∧ (stun d e).isAlive = e.isAlive := by
  unfold stun stop
  refine ⟨setState_state _ _, ?_, ?_, rfl, ?_, setState_isAlive _ _⟩
  · rw [setState_isStunned]
  · rw [setState_stunTime]
  · exact setState_previousState_of_ne _ _ hne

/-- While the remaining stun time exceeds the elapsed time, a tick ONLY
decrements the stun timer: the entity is otherwise untouched (perception and
the decision tree are skipped). -/
theorem update_stun_ticking (geo : Geo) (los : Bool) (now : ℚ)
    (tgt : Option Vec3) :
    ∀ (dts : List ℚ) (s : Entity), s.isAlive = true → s.isStunned = true →
      (∀ x ∈ dts, 0 ≤ x) → dts.sum < s.stunTime →
      dts.foldl (fun acc dt => update geo los now tgt dt acc) s
        = { s with stunTime := s.stunTime - dts.sum } := by
  intro dts
  induction dts with
  | nil =>
      intro s _ _ _ _
      simp only [List.foldl_nil, List.sum_nil, sub_zero]
  | cons dt rest ih =>
      intro s hal hst hnn hsum
      have hdtnn : 0 ≤ dt := hnn dt (by simp)
      have hrestnn : ∀ x ∈ rest, 0 ≤ x := fun x hx => hnn x (by simp [hx])
      have hrestsum : 0 ≤ rest.sum := List.sum_nonneg hrestnn
      have hsum' : dt + rest.sum < s.stunTime := by
        rw [List.sum_cons] at hsum
        exact hsum
      have hstep : update geo los now tgt dt s = { s with stunTime := s.stunTime - dt } := by
        unfold update
        rw [if_neg (by rw [hal]; simp)]
        rw [if_pos hst]
        unfold tickStunned
        dsimp only
        rw [if_neg (by show ¬ s.stunTime - dt ≤ 0; linarith)]
      show List.foldl _ (update geo los now tgt dt s) rest = _
      rw [hstep]
      rw [ih { s with stunTime := s.stunTime - dt } hal hst hrestnn
        (by show rest.sum < s.stunTime - dt; linarith)]
      show { s with stunTime := s.stunTime - dt - rest.sum } = _
      have harith : s.stunTime - dt - rest.sum = s.stunTime - (dt :: rest).sum := by
        rw [List.sum_cons]
        ring
      rw [harith]

/-- The tick on which the stun timer runs out restores exactly the pre-stun
state and clears the stunned flag. -/
theorem update_stun_restore (geo : Geo) (los : Bool) (now : ℚ)
    (tgt : Option Vec3) (d' : ℚ) (s : Entity) (hal : s.isAlive = true)
    (hst : s.isStunned = true) (helapsed : s.stunTime - d' ≤ 0) :
    (update geo los now tgt d' s).state = s.previousState
    ∧ (update geo los now tgt d' s).isStunned = false := by
  unfold update
  rw [if_neg (by rw [hal]; simp)]
  rw [if_pos hst]
  unfold tickStunned
  dsimp only
  rw [if_pos helapsed]
  constructor
  · exact setState_state _ _
  · rw [setState_isStunned]

/-! ## Claim C5 — stun freezes and restores the pre-stun state -/

/-- C5: `stun(d)` with `d > 0` on a live entity in a non-stunned state `S`
immediately forces state STUNNED with zero velocity while recording `S`; as
long as the cumulative tick time stays below `d`, every `update(dt)` only
decrements the stun timer (the entity is otherwise byte-for-byte unchanged,
so perception refresh and tree evaluation are skipped); and the first tick
whose cumulative time reaches `d` restores exactly `S` (never any other
state) and clears the stunned flag. -/
theorem c5_stun_freezes_then_restores (e : Entity) (d : ℚ)
    (halive : e.isAlive = true) (hnost : e.isStunned = false)
    (hne : e.state ≠ .stunned) (hd : 0 < d) :
    ((stun d e).state = .stunned ∧ (stun d e).isStunned = true
      ∧ (stun d e).stunTime = d ∧ (stun d e).velocity = Vec3.zero
      ∧ (stun d e).previousState = e.state)
    ∧ (∀ (geo : Geo) (los : Bool) (now : ℚ) (tgt : Option Vec3) (dts : List ℚ),
        (∀ x ∈ dts, 0 ≤ x) → dts.sum < d →
        dts.foldl (fun acc dt => update geo los now tgt dt acc) (stun d e)
          = { stun d e with stunTime := d - dts.sum })
    ∧ (∀ (geo : Geo) (los : Bool) (now : ℚ) (tgt : Option Vec3)
        (dts : List ℚ) (d' : ℚ),
        (∀ x ∈ dts, 0 ≤ x) → dts.sum < d → d ≤ dts.sum + d' →
        (update geo los now tgt d'
            (dts.foldl (fun acc dt => update geo los now tgt dt acc) (stun d e))).state
          = e.state
        ∧ (update geo los now tgt d'
            (dts.foldl (fun acc dt => update geo los now tgt dt acc) (stun d e))).isStunned
          = false) := by
  obtain ⟨f1, f2, f3, f4, f5, f6⟩ := stun_fields d e hne
  have hticking : ∀ (geo : Geo) (los : Bool) (now : ℚ) (tgt : Option Vec3)
      (dts : List ℚ), (∀ x ∈ dts, 0 ≤ x) → dts.sum < d →
      dts.foldl (fun acc dt => update geo los now tgt dt acc) (stun d e)
        = { stun d e with stunTime := d - dts.sum } := by
    intro geo los now tgt dts hnn hsum
    rw [update_stun_ticking geo los now tgt dts (stun d e) (f6.trans halive) f2
      hnn (by rw [f3]; exact hsum)]
    rw [f3]
  refine ⟨⟨f1, f2, f3, f4, f5⟩, hticking, ?_⟩
  intro geo los now tgt dts d' hnn hsum hcross
  rw [hticking geo los now tgt dts hnn hsum]
  have hrestore := update_stun_restore geo los now tgt d'
    { stun d e with stunTime := d - dts.sum }
    (by show (stun d e).isAlive = true; exact f6.trans halive)
    (by show (stun d e).isStunned = true; exact f2)
    (by show d - dts.sum - d' ≤ 0; linarith)
  refine ⟨?_, hrestore.2⟩
  rw [hrestore.1]
  show (stun d e).previousState = e.state
  exact f5

/-- C5 witness: `stun(2.0)` on an entity in Chase, ticks 0.5 s and 1 s (still
stunned), then a 0.75 s tick crossing 2 s total restores Chase. -/
theorem c5_stun_witness :
    chaseEntity.isAlive = true ∧ chaseEntity.isStunned = false
    ∧ chaseEntity.state = .chase ∧ (0:ℚ) < 2
    ∧ (update geoTriv false 0 none (3/4)
        (([(1:ℚ)/2, 1]).foldl
          (fun acc dt => update geoTriv false 0 none dt acc)
          (stun 2 chaseEntity))).state = .chase := by
  have hstate : chaseEntity.state = .chase := setState_state _ _
  have h := c5_stun_freezes_then_restores chaseEntity 2 rfl rfl
    (by rw [hstate]; intro hc; cases hc) (by norm_num)
  have h3 := (h.2.2 geoTriv false 0 none [(1:ℚ)/2, 1] (3/4)
    (by
      intro x hx
      simp only [List.mem_cons, List.not_mem_nil, or_false] at hx
      rcases hx with rfl | rfl <;> norm_num)
    (by simp only [List.sum_cons, List.sum_nil]; norm_num)
    (by simp only [List.sum_cons, List.sum_nil]; norm_num)).1
  exact ⟨rfl, rfl, hstate, by norm_num, h3.trans hstate⟩

/-! ## Soldier lemmas -/

theorem moveToCover_ent_stats (geo : Geo) (rnd : SoldierRand) (c : Vec3)
    (s : Soldier) :
    (moveToCover geo rnd c s).ent.health = s.ent.health
    ∧ (moveToCover geo rnd c s).ent.maxHealth = s.ent.maxHealth
    ∧ (moveToCover geo rnd c s).suppressTimer = s.suppressTimer := by
  unfold moveToCover
  dsimp only
  refine ⟨?_, ?_, ?_⟩ <;> (split <;> rfl)

theorem findAndMoveToCover_ent_stats (geo : Geo) (rnd : SoldierRand)
    (tgt : Option Vec3) (s : Soldier) :
    (findAndMoveToCover geo rnd tgt s).ent.health = s.ent.health
    ∧ (findAndMoveToCover geo rnd tgt s).ent.maxHealth = s.ent.maxHealth
    ∧ (findAndMoveToCover geo rnd tgt s).suppressTimer = s.suppressTimer := by
  unfold findAndMoveToCover
  dsimp only
  split
  · rename_i c _
    obtain ⟨h1, h2, h3⟩ := moveToCover_ent_stats geo rnd c.position
      { s with ent := setState .cover s.ent, coverState := _ }
    refine ⟨?_, ?_, h3⟩
    · rw [h1]; exact setState_health _ _
    · rw [h2]; exact setState_maxHealth _ _
  · exact ⟨setState_health _ _, setState_maxHealth _ _, rfl⟩

theorem soldierTakeDamage_suppress (geo : Geo) (rnd : SoldierRand)
    (tgt : Option Vec3) (a : ℚ) (s : Soldier) :
    (soldierTakeDamage geo rnd tgt a s).suppressTimer = s.suppressTimer + 1 := by
  unfold soldierTakeDamage
  dsimp only
  split
  · exact (findAndMoveToCover_ent_stats geo rnd tgt _).2.2
  · rfl

theorem updateTimers_suppress_pos (dt : ℚ) (s : Soldier)
    (h : 0 < s.suppressTimer) :
    (updateTimers dt s).suppressTimer = s.suppressTimer - dt := by
  obtain ⟨ent, cst, cts, sup, rep, gren, p1, p2, p3, p4, bc, bs, go⟩ := s
  dsimp only [updateTimers] at *
  split_ifs <;> rfl

theorem moveWithCover_ent_state (geo : Geo) (dir : Vec3) (sp : ℚ) (s : Soldier) :
    (moveWithCover geo dir sp s).ent.state = s.ent.state := rfl

theorem tacticalAdvance_ent_state (geo : Geo) (tgt : Option Vec3) (s : Soldier) :
    (tacticalAdvance geo tgt s).ent.state = s.ent.state := by
  unfold tacticalAdvance
  cases tgt
  · rfl
  · exact moveWithCover_ent_state _ _ _ _

theorem tacticalRetreat_ent_state (geo : Geo) (tgt : Option Vec3) (s : Soldier) :
    (tacticalRetreat geo tgt s).ent.state = s.ent.state := by
  unfold tacticalRetreat
  cases tgt
  · rfl
  · exact moveWithCover_ent_state _ _ _ _

theorem performBurstFire_ent_state (now : ℚ) (s : Soldier) :
    (performBurstFire now s).ent.state = s.ent.state := by
  unfold performBurstFire
  dsimp only
  split <;>
  · split
    · split <;> rfl
    · rfl

theorem moveToCover_ent_state (geo : Geo) (rnd : SoldierRand) (c : Vec3)
    (s : Soldier) : (moveToCover geo rnd c s).ent.state = s.ent.state :=
  (moveToCover_ent_core geo rnd c s).1

theorem tacticalReposition_ent_state (geo : Geo) (rnd : SoldierRand)
    (tgt : Option Vec3) (s : Soldier) :
    (tacticalReposition geo rnd tgt s).ent.state = s.ent.state := by
  unfold tacticalReposition
  dsimp only
  split
  · rfl
  · split
    · exact moveToCover_ent_state _ _ _ _
    · rfl

theorem throwGrenade_ent_state (geo : Geo) (rnd : SoldierRand)
    (tgt : Option Vec3) (s : Soldier) :
    (throwGrenade geo rnd tgt s).ent.state = s.ent.state := by
  unfold throwGrenade
  cases tgt
  · rfl
  · dsimp only
    split
    · rfl
    · rfl

/-- In a combat tick, cover-seeking happens exactly on the
`shouldSeekCover()` gate: positive gate forces COVER; negative gate always
lands in CHASE, RETREAT or ATTACK. -/
theorem executeTacticalAI_cover_gate (geo : Geo) (rnd : SoldierRand) (now : ℚ)
    (tgt : Option Vec3) (s : Soldier) :
    (shouldSeekCover s = true →
      (executeTacticalAI geo rnd now tgt s).ent.state = .cover)
    ∧ (shouldSeekCover s = false →
      ((executeTacticalAI geo rnd now tgt s).ent.state = .chase
        ∨ (executeTacticalAI geo rnd now tgt s).ent.state = .retreat
        ∨ (executeTacticalAI geo rnd now tgt s).ent.state = .attack)) := by
  constructor
  · intro h
    unfold executeTacticalAI
    rw [if_pos h]
    exact (findAndMoveToCover_ent_core geo rnd tgt s).1
  · intro h
    unfold executeTacticalAI
    rw [if_neg (by rw [h]; simp)]
    dsimp only
    have hgren : ∀ (x : Soldier), (if x.usesGrenades = true ∧ x.grenadeCooldown ≤ 0
        ∧ infLt s.ent.perceptionDist 25 = true then throwGrenade geo rnd tgt x else x).ent.state
        = x.ent.state := by
      intro x
      split
      · exact throwGrenade_ent_state _ _ _ _
      · rfl
    split
    · rw [hgren, tacticalAdvance_ent_state]
      exact Or.inl (setState_state _ _)
    · split
      · rw [hgren, tacticalRetreat_ent_state]
        exact Or.inr (Or.inl (setState_state _ _))
      · rw [hgren]
        split
        · rw [tacticalReposition_ent_state, performBurstFire_ent_state]
          exact Or.inr (Or.inr (setState_state _ _))
        · rw [performBurstFire_ent_state]
          exact Or.inr (Or.inr (setState_state _ _))

/-! ## Claim C6 — cover-seeking triggers -/

/-- C6 counterexample: a soldier at 54/120 health (45%, below the claimed
50% trigger) with no suppression does NOT seek cover on its tick:
`shouldSeekCover` compares against `retreatDistance = 0.4`, i.e. 40% of
maxHealth, not 50%. -/
theorem c6_cover_at_fifty_percent_cex :
    soldierAt54.ent.health < soldierAt54.ent.maxHealth * (1/2)
    ∧ soldierAt54.suppressTimer ≤ 2
    ∧ shouldSeekCover soldierAt54 = false := by
  refine ⟨?_, ?_, ?_⟩
  · show (54:ℚ) < 120 * (1/2)
    norm_num
  · show (0:ℚ) ≤ 2
    norm_num
  · show shouldSeekCover soldierAt54 = false
    unfold shouldSeekCover
    rw [if_neg (by show ¬ (54:ℚ) < 120 * (2/5); norm_num)]
    rw [if_neg (by show ¬ (0:ℚ) > 2; norm_num)]

/-- C6 amended: tick-path cover-seeking (`shouldSeekCover`, consumed by
`executeTacticalAI`) triggers exactly when health is below
`retreatDistance` = 40% of maxHealth (not 50%) or the suppression timer
exceeds 2 s; the suppression timer gains 1.0 s on every damage instance and
is decremented by the elapsed time while positive; separately,
`Soldier.takeDamage` itself moves the soldier to COVER within the same call
whenever the post-damage health is below 50% of max. -/
theorem c6_cover_seeking_amended :
    ((mkSoldier none none).ent.movement.retreatDistance = 2/5)
    ∧ (∀ s : Soldier, s.ent.movement.retreatDistance = 2/5 →
        (shouldSeekCover s = true ↔
          (s.ent.health < s.ent.maxHealth * (2/5) ∨ s.suppressTimer > 2)))
    ∧ (∀ (geo : Geo) (rnd : SoldierRand) (tgt : Option Vec3) (a : ℚ)
        (s : Soldier),
        (soldierTakeDamage geo rnd tgt a s).suppressTimer = s.suppressTimer + 1)
    ∧ (∀ (dt : ℚ) (s : Soldier), 0 < s.suppressTimer →
        (updateTimers dt s).suppressTimer = s.suppressTimer - dt)
    ∧ (∀ (geo : Geo) (rnd : SoldierRand) (now : ℚ) (tgt : Option Vec3)
        (s : Soldier),
        (shouldSeekCover s = true →
          (executeTacticalAI geo rnd now tgt s).ent.state = .cover)
        ∧ (shouldSeekCover s = false →
          (executeTacticalAI geo rnd now tgt s).ent.state ≠ .cover))
    ∧ (∀ (geo : Geo) (rnd : SoldierRand) (tgt : Option Vec3) (a : ℚ)
        (s : Soldier),
        (soldierTakeDamage geo rnd tgt a s).ent.health
            < (soldierTakeDamage geo rnd tgt a s).ent.maxHealth * (1/2) →
        (soldierTakeDamage geo rnd tgt a s).ent.state = .cover) := by
  refine ⟨rfl, ?_, soldierTakeDamage_suppress, updateTimers_suppress_pos, ?_, ?_⟩
  · intro s hr
    unfold shouldSeekCover
    rw [hr]
    split
    · rename_i h
      exact ⟨fun _ => Or.inl h, fun _ => rfl⟩
    · split
      · rename_i h2
        exact ⟨fun _ => Or.inr h2, fun _ => rfl⟩
      · rename_i h1 h2
        constructor
        · intro hfalse
          cases hfalse
        · intro hor
          exfalso
          rcases hor with hor | hor
          · exact h1 hor
          · exact h2 hor
  · intro geo rnd now tgt s
    obtain ⟨hpos, hneg⟩ := executeTacticalAI_cover_gate geo rnd now tgt s
    refine ⟨hpos, ?_⟩
    intro h
    rcases hneg h with h' | h' | h' <;> (rw [h']; intro hc; cases hc)
  · intro geo rnd tgt a s
    unfold soldierTakeDamage
    dsimp only
    split
    · intro _
      exact (findAndMoveToCover_ent_core geo rnd tgt _).1
    · rename_i hc
      intro hpost
      by_contra hne
      exact hc ⟨hpost, hne⟩

/-- C6 witness: a full-armor soldier hit for 100 (armor soaks 30, health
drops 120 → 50 < 60) ends the same `takeDamage` call in COVER; and the
45%-health soldier's gate evaluates per the amended 40% rule. -/
theorem c6_cover_seeking_witness :
    soldierAt54.ent.movement.retreatDistance = 2/5
    ∧ (shouldSeekCover soldierAt54 = true ↔
        (soldierAt54.ent.health < soldierAt54.ent.maxHealth * (2/5)
          ∨ soldierAt54.suppressTimer > 2))
    ∧ ((soldierTakeDamage geoTriv rndTriv none 100 (mkSoldier none none)).ent.health
          < (soldierTakeDamage geoTriv rndTriv none 100
              (mkSoldier none none)).ent.maxHealth * (1/2))
    ∧ (soldierTakeDamage geoTriv rndTriv none 100
          (mkSoldier none none)).ent.state = .cover := by
  have hlow : (soldierTakeDamage geoTriv rndTriv none 100 (mkSoldier none none)).ent.health
      < (soldierTakeDamage geoTriv rndTriv none 100
          (mkSoldier none none)).ent.maxHealth * (1/2) := by
    have h1 := (findAndMoveToCover_ent_stats geoTriv rndTriv none
      { (mkSoldier none none) with
          ent := takeDamage geoTriv 100 (mkSoldier none none).ent,
          suppressTimer := (mkSoldier none none).suppressTimer + 1 })
    show (soldierTakeDamage geoTriv rndTriv none 100 (mkSoldier none none)).ent.health
        < _ * (1/2)
    unfold soldierTakeDamage
    dsimp only
    split <;>
      · first
          | (rw [h1.1, h1.2.1]; norm_num [takeDamage, armorAbsorb, soldierCoverStep,
              mkSoldier, mkAICharacter, SOLDIER_CONFIG])
          | norm_num [takeDamage, armorAbsorb, soldierCoverStep,
              mkSoldier, mkAICharacter, SOLDIER_CONFIG]
  refine ⟨rfl, c6_cover_seeking_amended.2.1 soldierAt54 rfl, hlow, ?_⟩
  exact c6_cover_seeking_amended.2.2.2.2.2 geoTriv rndTriv none 100
    (mkSoldier none none) hlow

/-! ## Claim C8 — the inter-burst pause branch is dead code -/

/-- C8 (code bug): a fresh soldier whose `performBurstFire` is invoked at
t = 200, 400, 600, 800 ms fires on every invocation.  The burst counter runs
3 → 0 over the first three shots (one complete 3-round burst, 0.15 s-gated),
yet the fourth round leaves only 200 ms < 500 ms after the burst completed:
the 0.5 s inter-burst branch is unreachable because the counter is refilled
before the `burstCount > 0` check, so `attackCooldown` is 0.15 s even at the
burst boundary. -/
theorem c8_burst_fire_pause_unreachable :
    (([(200:ℚ), 400, 600, 800].foldl (fun s t => performBurstFire t s)
        (mkSoldier none none)).ent.attackObs = [200, 400, 600, 800])
    ∧ (([(200:ℚ), 400, 600].foldl (fun s t => performBurstFire t s)
        (mkSoldier none none)).burstCount = 0)
    ∧ ((performBurstFire 800
          ([(200:ℚ), 400, 600].foldl (fun s t => performBurstFire t s)
            (mkSoldier none none))).ent.attackCooldown = 3/20)
    ∧ ((800:ℚ) - 600 < 500) := by
  refine ⟨?_, ?_, ?_, by norm_num⟩ <;>
    norm_num [performBurstFire, mkSoldier, mkAICharacter, SOLDIER_CONFIG]

/-! ## Boss lemmas -/

theorem takeDamage_health_bounds (geo : Geo) (a : ℚ) (e : Entity)
    (ha : 0 ≤ a) (hh : 0 ≤ e.health) :
    0 ≤ (takeDamage geo a e).health ∧ (takeDamage geo a e).health ≤ e.health := by
  by_cases halive : e.isAlive = true
  · obtain ⟨_, _, _, hcases⟩ := takeDamage_alive_fields geo a e halive
    have hdmg := armorAbsorb_snd_nonneg a e ha
    rcases hcases with ⟨hpos, hheq, _, _⟩ | ⟨_, hheq, _, _⟩
    · rw [hheq]
      exact ⟨le_of_lt hpos, by linarith⟩
    · rw [hheq]
      exact ⟨le_refl 0, hh⟩
  · rw [takeDamage_dead geo a e (by revert halive; cases e.isAlive <;> simp)]
    exact ⟨hh, le_refl _⟩

theorem checkEnrage_core (b : Boss) :
    (checkEnrage b).currentPhaseIndex = b.currentPhaseIndex
    ∧ (checkEnrage b).ent.health = b.ent.health
    ∧ (checkEnrage b).ent.maxHealth = b.ent.maxHealth
    ∧ (checkEnrage b).phases = b.phases
    ∧ (checkEnrage b).phaseHealthThresholds = b.phaseHealthThresholds := by
  unfold checkEnrage enterEnrage
  dsimp only
  split
  · exact ⟨rfl, rfl, rfl, rfl, rfl⟩
  · split
    · exact ⟨rfl, rfl, rfl, rfl, rfl⟩
    · exact ⟨rfl, rfl, rfl, rfl, rfl⟩

theorem advanceToNextPhase_core (b : Boss) :
    (advanceToNextPhase b).ent.health = b.ent.health
    ∧ (advanceToNextPhase b).ent.maxHealth = b.ent.maxHealth
    ∧ (advanceToNextPhase b).phases = b.phases
    ∧ (advanceToNextPhase b).phaseHealthThresholds = b.phaseHealthThresholds
    ∧ b.currentPhaseIndex ≤ (advanceToNextPhase b).currentPhaseIndex
    ∧ (advanceToNextPhase b).currentPhaseIndex ≤ b.currentPhaseIndex + 1 := by
  unfold advanceToNextPhase
  dsimp only
  split
  · exact ⟨rfl, rfl, rfl, rfl, le_refl _, Nat.le_succ _⟩
  · exact ⟨rfl, rfl, rfl, rfl, Nat.le_succ _, le_refl _⟩

theorem advanceToNextPhase_adv (b : Boss)
    (h : b.currentPhaseIndex + 1 < b.phases.length) :
    (advanceToNextPhase b).currentPhaseIndex = b.currentPhaseIndex + 1 := by
  unfold advanceToNextPhase
  dsimp only
  rw [if_neg (by omega)]

theorem checkPhaseTransition_core (b : Boss) :
    (checkPhaseTransition b).ent.health = b.ent.health
    ∧ (checkPhaseTransition b).ent.maxHealth = b.ent.maxHealth
    ∧ (checkPhaseTransition b).phases = b.phases
    ∧ (checkPhaseTransition b).phaseHealthThresholds = b.phaseHealthThresholds
    ∧ b.currentPhaseIndex ≤ (checkPhaseTransition b).currentPhaseIndex
    ∧ (checkPhaseTransition b).currentPhaseIndex ≤ b.currentPhaseIndex + 1 := by
  unfold checkPhaseTransition
  dsimp only
  split
  · exact ⟨rfl, rfl, rfl, rfl, le_refl _, Nat.le_succ _⟩
  · split
    · exact advanceToNextPhase_core b
    · exact ⟨rfl, rfl, rfl, rfl, le_refl _, Nat.le_succ _⟩

theorem bossTakeDamage_index_bounds (geo : Geo) (a : ℚ) (b : Boss) :
    b.currentPhaseIndex ≤ (bossTakeDamage geo a b).currentPhaseIndex
    ∧ (bossTakeDamage geo a b).currentPhaseIndex ≤ b.currentPhaseIndex + 1 := by
  unfold bossTakeDamage
  dsimp only
  split
  · exact ⟨le_refl _, Nat.le_succ _⟩
  · obtain ⟨hce, _, _, _, _⟩ := checkEnrage_core (checkPhaseTransition
      { b with hitCount := b.hitCount + 1, ent := takeDamage geo a b.ent })
    obtain ⟨_, _, _, _, hlo, hhi⟩ := checkPhaseTransition_core
      { b with hitCount := b.hitCount + 1, ent := takeDamage geo a b.ent }
    rw [hce]
    exact ⟨hlo, hhi⟩

theorem bossTakeDamage_maxHealth (geo : Geo) (a : ℚ) (b : Boss) :
    (bossTakeDamage geo a b).ent.maxHealth = b.ent.maxHealth := by
  unfold bossTakeDamage
  dsimp only
  split
  · rfl
  · rename_i hnd
    have halive : b.ent.isAlive = true := by
      revert hnd
      cases b.ent.isAlive <;> simp
    obtain ⟨_, _, hmax, _, _⟩ := checkEnrage_core (checkPhaseTransition
      { b with hitCount := b.hitCount + 1, ent := takeDamage geo a b.ent })
    obtain ⟨_, hmax2, _, _, _, _⟩ := checkPhaseTransition_core
      { b with hitCount := b.hitCount + 1, ent := takeDamage geo a b.ent }
    rw [hmax, hmax2]
    exact (takeDamage_alive_fields geo a b.ent halive).1

theorem mkBoss_twoPhase_inv (config : BossConfig) (p1 p2 : BossPhaseConfig)
    (hphases : config.phases = [p1, p2]) (h1 : p1.health = 500)
    (h2 : p2.health = 500) : TwoPhase500Inv (mkBoss config) := by
  have hmx : (mkBoss config).ent.maxHealth = 500 := by
    show config.phases.headI.health = 500
    rw [hphases]
    exact h1
  have hh : (mkBoss config).ent.health = 500 := by
    show config.phases.headI.health = 500
    rw [hphases]
    exact h1
  have hth : (mkBoss config).phaseHealthThresholds = [1/2, 0] := by
    show calculatePhaseThresholds config.phases = [1/2, 0]
    rw [hphases]
    norm_num [calculatePhaseThresholds, calcThresholdsGo, h1, h2]
  have hlen : (mkBoss config).phases.length = 2 := by
    show config.phases.length = 2
    rw [hphases]
    rfl
  exact ⟨hmx, hth, hlen, by rw [hh]; norm_num,
    Or.inl ⟨rfl, by rw [hh]; norm_num⟩⟩

theorem bossTakeDamage_twoPhase_inv (geo : Geo) (a : ℚ) (b : Boss)
    (ha : 0 ≤ a) : TwoPhase500Inv b → TwoPhase500Inv (bossTakeDamage geo a b) := by
  intro ⟨hmx, hth, hlen, hh0, hcase⟩
  unfold bossTakeDamage
  dsimp only
  split
  · exact ⟨hmx, hth, hlen, hh0, hcase⟩
  · rename_i hnd
    have halive : b.ent.isAlive = true := by
      revert hnd
      cases b.ent.isAlive <;> simp
    have hbounds := takeDamage_health_bounds geo a b.ent ha hh0
    have hmax' := (takeDamage_alive_fields geo a b.ent halive).1
    set b2 : Boss := { b with hitCount := b.hitCount + 1, ent := takeDamage geo a b.ent }
      with hb2
    have hinv2 : TwoPhase500Inv (checkPhaseTransition b2) := by
      unfold checkPhaseTransition
      dsimp only
      have hb2idx : b2.currentPhaseIndex = b.currentPhaseIndex := rfl
      have hb2len : b2.phases.length = 2 := hlen
      have hb2th : b2.phaseHealthThresholds = [1/2, 0] := hth
      have hb2mx : b2.ent.maxHealth = 500 := by
        show (takeDamage geo a b.ent).maxHealth = 500
        rw [hmax']
        exact hmx
      rcases hcase with ⟨hidx0, hgt⟩ | ⟨hidx1, hle⟩
      · rw [if_neg (by rw [hb2idx, hidx0, hb2len]; omega)]
        have hthr : b2.phaseHealthThresholds.getD b2.currentPhaseIndex 0 = 1/2 := by
          rw [hb2th, hb2idx, hidx0]
          rfl
        rw [hthr]
        split
        · rename_i hcond
          have hadv : (advanceToNextPhase b2).currentPhaseIndex = 1 := by
            rw [advanceToNextPhase_adv b2 (by rw [hb2idx, hidx0, hb2len]; omega),
              hb2idx, hidx0]
          obtain ⟨ah, amx, aph, ath, _, _⟩ := advanceToNextPhase_core b2
          refine ⟨by rw [amx]; exact hb2mx, by rw [ath]; exact hb2th,
            by rw [aph]; exact hb2len, by rw [ah]; exact hbounds.1,
            Or.inr ⟨hadv, ?_⟩⟩
          rw [ah]
          have hfrac : b2.ent.health / (500:ℚ) ≤ 1/2 := by
            have h0 : b2.ent.health / b2.ent.maxHealth ≤ 1/2 := hcond
            rw [hb2mx] at h0
            exact h0
          have hle := (div_le_iff (by norm_num : (0:ℚ) < 500)).mp hfrac
          show b2.ent.health ≤ 250
          linarith
        · rename_i hcond
          refine ⟨hb2mx, hb2th, hb2len, hbounds.1, Or.inl ⟨by rw [hb2idx]; exact hidx0, ?_⟩⟩
          show (250:ℚ) < b2.ent.health
          have hnot : (1:ℚ)/2 < b2.ent.health / 500 := by
            rw [← not_le]
            intro hc
            exact hcond (by
              show b2.ent.health / b2.ent.maxHealth ≤ 1/2
              rw [hb2mx]
              exact hc)
          have := (lt_div_iff (by norm_num : (0:ℚ) < 500)).mp hnot
          linarith
      · rw [if_pos (by rw [hb2idx, hidx1, hb2len])]
        exact ⟨hb2mx, hb2th, hb2len, hbounds.1,
          Or.inr ⟨by rw [hb2idx]; exact hidx1, le_trans hbounds.2 hle⟩⟩
    obtain ⟨ei, eh, emx, eph, eth⟩ := checkEnrage_core (checkPhaseTransition b2)
    obtain ⟨j1, j2, j3, j4, j5⟩ := hinv2
    refine ⟨by rw [emx]; exact j1, by rw [eth]; exact j2,
      by rw [eph]; exact j3, by rw [eh]; exact j4, ?_⟩
    rcases j5 with ⟨jidx, jh⟩ | ⟨jidx, jh⟩
    · exact Or.inl ⟨by rw [ei]; exact jidx, by rw [eh]; exact jh⟩
    · exact Or.inr ⟨by rw [ei]; exact jidx, by rw [eh]; exact jh⟩

/-! ## Claim C2 — two-phase boss advancement -/

/-- C2: a boss built from two 500-health phases has maxHealth 500; along any
sequence of nonnegative `takeDamage` amounts the phase index is 1 exactly
when health has crossed to at most 50% of max (and never exceeds 1); every
single `takeDamage` call moves the phase index forward by at most one and
never backward; only an explicit `reset()` returns the index to 0. -/
theorem c2_two_phase_boss_crosses_half (geo : Geo) (config : BossConfig)
    (p1 p2 : BossPhaseConfig) (hphases : config.phases = [p1, p2])
    (h1 : p1.health = 500) (h2 : p2.health = 500)
    (amounts : List ℚ) (hamts : ∀ x ∈ amounts, 0 ≤ x) :
    ((amounts.foldl (fun acc a => bossTakeDamage geo a acc)
        (mkBoss config)).ent.maxHealth = 500
      ∧ ((amounts.foldl (fun acc a => bossTakeDamage geo a acc)
            (mkBoss config)).currentPhaseIndex = 1
          ↔ (amounts.foldl (fun acc a => bossTakeDamage geo a acc)
              (mkBoss config)).ent.health
            ≤ (amounts.foldl (fun acc a => bossTakeDamage geo a acc)
                (mkBoss config)).ent.maxHealth * (1/2))
      ∧ (amounts.foldl (fun acc a => bossTakeDamage geo a acc)
          (mkBoss config)).currentPhaseIndex ≤ 1)
    ∧ (∀ (a : ℚ) (b' : Boss),
        b'.currentPhaseIndex ≤ (bossTakeDamage geo a b').currentPhaseIndex
        ∧ (bossTakeDamage geo a b').currentPhaseIndex ≤ b'.currentPhaseIndex + 1)
    ∧ (∀ b' : Boss, (bossReset b').currentPhaseIndex = 0) := by
  have hfold : ∀ (l : List ℚ) (b : Boss), TwoPhase500Inv b →
      (∀ x ∈ l, 0 ≤ x) →
      TwoPhase500Inv (l.foldl (fun acc a => bossTakeDamage geo a acc) b) := by
    intro l
    induction l with
    | nil => intro b hb _; exact hb
    | cons a rest ih =>
        intro b hb hnn
        exact ih (bossTakeDamage geo a b)
          (bossTakeDamage_twoPhase_inv geo a b (hnn a (by simp)) hb)
          (fun x hx => hnn x (by simp [hx]))
  obtain ⟨hmx, _, _, _, hcase⟩ := hfold amounts (mkBoss config)
    (mkBoss_twoPhase_inv config p1 p2 hphases h1 h2) hamts
  refine ⟨⟨hmx, ?_, ?_⟩, fun a b' => bossTakeDamage_index_bounds geo a b',
    fun b' => rfl⟩
  · rw [hmx]
    constructor
    · intro hidx
      rcases hcase with ⟨hidx0, _⟩ | ⟨_, hle⟩
      · rw [hidx0] at hidx
        cases hidx
      · show _ ≤ (500:ℚ) * (1/2)
        norm_num
        exact hle
    · intro hle
      rcases hcase with ⟨_, hgt⟩ | ⟨hidx1, _⟩
      · exfalso
        have : (500:ℚ) * (1/2) = 250 := by norm_num
        rw [this] at hle
        linarith
      · exact hidx1
  · rcases hcase with ⟨hidx0, _⟩ | ⟨hidx1, _⟩
    · rw [hidx0]; omega
    · rw [hidx1]

/-- C2 witness: the Trainer-shaped 500/500 boss hit for 300 then 100 (health
500 → 250 → 150, crossing 50% of maxHealth 500) sits in phase 1. -/
theorem c2_two_phase_boss_witness :
    TRAINER_CONFIG.phases
        = [{ phaseName := "training", health := 500, damageMultiplier := 1/2,
             speedMultiplier := 7/10,
             mechanics := ["demonstration", "duel_invite", "teaching"] },
           { phaseName := "combat", health := 500, damageMultiplier := 1,
             speedMultiplier := 1,
             mechanics := ["combo", "flashbang", "enrage", "aggressive"] }]
    ∧ (([(300:ℚ), 100].foldl (fun acc a => bossTakeDamage geoTriv a acc)
        (mkBoss TRAINER_CONFIG)).ent.maxHealth = 500
      ∧ (([(300:ℚ), 100].foldl (fun acc a => bossTakeDamage geoTriv a acc)
            (mkBoss TRAINER_CONFIG)).currentPhaseIndex = 1
          ↔ ([(300:ℚ), 100].foldl (fun acc a => bossTakeDamage geoTriv a acc)
              (mkBoss TRAINER_CONFIG)).ent.health
            ≤ ([(300:ℚ), 100].foldl (fun acc a => bossTakeDamage geoTriv a acc)
                (mkBoss TRAINER_CONFIG)).ent.maxHealth * (1/2))) := by
  have h := c2_two_phase_boss_crosses_half geoTriv TRAINER_CONFIG
    { phaseName := "training", health := 500, damageMultiplier := 1/2,
      speedMultiplier := 7/10,
      mechanics := ["demonstration", "duel_invite", "teaching"] }
    { phaseName := "combat", health := 500, damageMultiplier := 1,
      speedMultiplier := 1,
      mechanics := ["combo", "flashbang", "enrage", "aggressive"] }
    rfl rfl rfl [300, 100]
    (by
      intro x hx
      simp only [List.mem_cons, List.not_mem_nil, or_false] at hx
      rcases hx with rfl | rfl <;> norm_num)
  exact ⟨rfl, h.1.1, h.1.2.1⟩

/-! ## Claim C10 — maxHealth is the first phase's budget -/

/-- C10: the boss constructor initialises health and maxHealth to the FIRST
phase's health budget — for the Trainer (configured total 1000 over two
500-health phases) that is 500, not 1000 — no later operation changes
maxHealth, and both later health-fraction gates (the enrage check and the
phase-threshold check) therefore compare `health / 500`, i.e. fractions of
the first phase's budget only: enrage fires at health ≤ 0.2·500 = 100 and
the first phase advance at health ≤ 0.5·500 = 250. -/
theorem c10_max_health_is_first_phase_budget :
    ((mkBoss TRAINER_CONFIG).ent.maxHealth = 500
      ∧ (mkBoss TRAINER_CONFIG).ent.health = 500
      ∧ TRAINER_CONFIG.base.health = 1000
      ∧ (mkBoss TRAINER_CONFIG).ent.maxHealth = TRAINER_PHASES.headI.health)
    ∧ (∀ (geo : Geo) (a : ℚ) (b : Boss),
        (bossTakeDamage geo a b).ent.maxHealth = b.ent.maxHealth)
    ∧ (∀ b : Boss, b.ent.maxHealth = 500 → b.enrageThreshold = 1/5 →
        ((checkEnrage b).isEnraged = true
          ↔ (b.isEnraged = true ∨ b.ent.health ≤ 100)))
    ∧ (∀ b : Boss, b.ent.maxHealth = 500 → b.currentPhaseIndex = 0 →
        b.phases.length = 2 → b.phaseHealthThresholds = [1/2, 0] →
        ((checkPhaseTransition b).currentPhaseIndex = 1 ↔ b.ent.health ≤ 250)) := by
  refine ⟨⟨rfl, rfl, rfl, rfl⟩, bossTakeDamage_maxHealth, ?_, ?_⟩
  · intro b hmx hthr
    unfold checkEnrage enterEnrage
    dsimp only
    split
    · rename_i he
      exact ⟨fun _ => Or.inl he, fun _ => he⟩
    · rename_i hne
      rw [hmx, hthr]
      split
      · rename_i hcond
        constructor
        · intro _
          refine Or.inr ?_
          have := (div_le_iff (by norm_num : (0:ℚ) < 500)).mp hcond
          linarith
        · intro _
          rfl
      · rename_i hcond
        constructor
        · intro hfalse
          exact absurd hfalse hne
        · intro hor
          rcases hor with hor | hor
          · exact absurd hor hne
          · exfalso
            exact hcond (by
              rw [div_le_iff (by norm_num : (0:ℚ) < 500)]
              linarith)
  · intro b hmx hidx hlen hth
    unfold checkPhaseTransition
    dsimp only
    rw [if_neg (by rw [hidx, hlen]; omega)]
    have hthr : b.phaseHealthThresholds.getD b.currentPhaseIndex 0 = 1/2 := by
      rw [hth, hidx]
      rfl
    rw [hthr, hmx]
    split
    · rename_i hcond
      have hle : b.ent.health ≤ 250 := by
        have := (div_le_iff (by norm_num : (0:ℚ) < 500)).mp hcond
        linarith
      constructor
      · intro _
        exact hle
      · intro _
        rw [advanceToNextPhase_adv b (by rw [hidx, hlen]; omega), hidx]
    · rename_i hcond
      constructor
      · intro heq
        rw [hidx] at heq
        cases heq
      · intro hle
        exfalso
        exact hcond (by
          rw [div_le_iff (by norm_num : (0:ℚ) < 500)]
          linarith)

/-- C10 witness: the enrage and phase gates of the freshly built Trainer
evaluated through the theorem (health 500: neither gate fires). -/
theorem c10_max_health_witness :
    (mkBoss TRAINER_CONFIG).ent.maxHealth = 500
    ∧ (mkBoss TRAINER_CONFIG).enrageThreshold = 1/5
    ∧ (mkBoss TRAINER_CONFIG).currentPhaseIndex = 0
    ∧ (mkBoss TRAINER_CONFIG).phases.length = 2
    ∧ (mkBoss TRAINER_CONFIG).phaseHealthThresholds = [1/2, 0]
    ∧ ((checkEnrage (mkBoss TRAINER_CONFIG)).isEnraged = true
        ↔ ((mkBoss TRAINER_CONFIG).isEnraged = true
            ∨ (mkBoss TRAINER_CONFIG).ent.health ≤ 100))
    ∧ ((checkPhaseTransition (mkBoss TRAINER_CONFIG)).currentPhaseIndex = 1
        ↔ (mkBoss TRAINER_CONFIG).ent.health ≤ 250) := by
  have hth : (mkBoss TRAINER_CONFIG).phaseHealthThresholds = [1/2, 0] := by
    show calculatePhaseThresholds TRAINER_PHASES = [1/2, 0]
    norm_num [calculatePhaseThresholds, calcThresholdsGo, TRAINER_PHASES]
  refine ⟨rfl, rfl, rfl, rfl, hth, ?_, ?_⟩
  · exact c10_max_health_is_first_phase_budget.2.2.1 (mkBoss TRAINER_CONFIG) rfl rfl
  · exact c10_max_health_is_first_phase_budget.2.2.2 (mkBoss TRAINER_CONFIG)
      rfl rfl rfl hth

end Csrpg
